import Mathlib

/-! SBT-Satisfaction: the company and customer dapps

A shallow embedding of the React components of the two front-ends
(`company-dapp` and `customer-dapp`) and of the properties their
specification states about them.

Conventions of the embedding

* A component's `useState` cells are the fields of a structure; an event
  handler or effect is a function from the state at the render it was created
  in to the state after all its `setState` calls have been applied.
* Everything outside the repository (the browser's `localStorage`, `JSON`,
  the `ethers` library, the wallet provider and the chain) is an explicit
  argument: an oracle that answers each call with a value or a thrown error.
* `try` / `catch` / `finally` are written out: a block returns the state it
  reached together with the error it threw, if any.
* Calls that leave the component (wallet construction, contract reads,
  transactions) are recorded, in order, in a list of `Event`s.
-/

namespace SBT

set_option autoImplicit false

/-! ## JavaScript values -/

mutual
/-- A value `JSON.parse` can return. Numbers are kept as integers: the code
only ever observes whether a number is zero. -/
inductive Json where
  | null
  | bool (b : Bool)
  | num (n : Int)
  | str (s : String)
  | arr (items : JsonList)
  | obj (props : JsonProps)
  deriving DecidableEq, Repr
/-- The elements of a JSON array. -/
inductive JsonList where
  | nil
  | cons (head : Json) (tail : JsonList)
  deriving DecidableEq, Repr
/-- The properties of a JSON object, in insertion order. -/
inductive JsonProps where
  | nil
  | cons (key : String) (value : Json) (rest : JsonProps)
  deriving DecidableEq, Repr
end

/-- A JavaScript value as the components meet it: `none` is `undefined`. -/
abbrev JsVal := Option Json

/-- JavaScript truthiness of a JSON value (`if (v)`, `!v`, `v || d`). -/
def Json.truthy : Json → Bool
  | .null => false
  | .bool b => b
  | .num n => n != 0
  | .str s => s != ""
  | .arr _ => true
  | .obj _ => true

/-- JavaScript truthiness of a value that may be `undefined`. -/
def truthy : JsVal → Bool
  | none => false
  | some v => v.truthy

/-- The expression `v || d`. -/
def jsOr (v : JsVal) (d : Json) : Json :=
  match v with
  | some j => if j.truthy then j else d
  | none => d

/-- Own-property read on the properties of a parsed object. -/
def JsonProps.get : JsonProps → String → JsVal
  | .nil, _ => none
  | .cons k v rest, name => if k = name then some v else rest.get name

/-- Property read `v.name` on a JSON value other than `null`: objects answer
from their own properties; primitives and arrays have no such property. -/
def Json.prop (v : Json) (name : String) : JsVal :=
  match v with
  | .obj props => props.get name
  | _ => none

/-- A thrown JavaScript error: its constructor name and its `message`. -/
structure JsError where
  name : String
  message : String
  deriving DecidableEq, Repr

/-- The statement `throw new Error(message)`. -/
def mkError (message : String) : JsError := ⟨"Error", message⟩

/-- The method `String.prototype.toLowerCase`, on the ASCII letters (the
letters an address or key in hexadecimal can contain). -/
def toLowerCase (s : String) : String := ⟨s.data.map Char.toLower⟩

/-- The method `String.prototype.startsWith`, for the argument `'0x'`. -/
def startsWith0x (s : String) : Bool :=
  match s.data with
  | '0' :: 'x' :: _ => true
  | _ => false

/-! ## localStorage and JSON text -/

/-- A text held in `localStorage`, classified by what `JSON.parse` does with
it: a JSON text (given by the value it denotes) or a text that is not JSON. -/
inductive StoredText where
  | json (v : Json)
  | malformed (raw : String)
  deriving DecidableEq, Repr

/-- Truthiness of a stored text: only the empty string is falsy, and the empty
string is not a JSON text. -/
def StoredText.truthy : StoredText → Bool
  | .json _ => true
  | .malformed raw => raw != ""

/-- The function `JSON.parse`. -/
def jsonParse : StoredText → Except JsError Json
  | .json v => .ok v
  | .malformed _ => .error ⟨"SyntaxError", "Unexpected token in JSON"⟩

/-- The function `JSON.stringify`, followed by the conversion to a string
that `setItem` applies: `undefined` is stored as the text `undefined`. -/
def jsonStringify : JsVal → StoredText
  | some v => .json v
  | none => .malformed "undefined"

/-- An object literal with the two address properties; a property whose value
is `undefined` is left out by `JSON.stringify`. -/
def addressRecord (company customerSatisfaction : JsVal) : Json :=
  let tail : JsonProps :=
    match customerSatisfaction with
    | some v => .cons "customerSatisfaction" v .nil
    | none => .nil
  match company with
  | some v => .obj (.cons "company" v tail)
  | none => .obj tail

/-- The browser's `localStorage`, reduced to the one key the code uses,
`'contractAddresses'`. `available` is false when the browser denies access to
storage (every call throws); `full` is true when writes exceed the quota. -/
structure LocalStorage where
  available : Bool
  full : Bool
  contractAddresses : Option StoredText
  deriving DecidableEq, Repr

/-- The call `localStorage.getItem('contractAddresses')`. -/
def LocalStorage.getItem (ls : LocalStorage) : Except JsError (Option StoredText) :=
  if ls.available then .ok ls.contractAddresses
  else .error ⟨"SecurityError", "The operation is insecure."⟩

/-- The call `localStorage.setItem('contractAddresses', text)`. -/
def LocalStorage.setItem (ls : LocalStorage) (text : StoredText) : Except JsError LocalStorage :=
  if !ls.available then .error ⟨"SecurityError", "The operation is insecure."⟩
  else if ls.full then .error ⟨"QuotaExceededError", "The quota has been exceeded."⟩
  else .ok { ls with contractAddresses := some text }

/-- The pattern `const { company, customerSatisfaction } = v`: destructuring
`null` throws a TypeError. -/
def destructureAddresses (v : Json) : Except JsError (JsVal × JsVal) :=
  match v with
  | .null => .error ⟨"TypeError", "Cannot destructure property of null"⟩
  | v => .ok (v.prop "company", v.prop "customerSatisfaction")

/-! ## App (company-dapp and customer-dapp) -/

/-- The state cells of `App`. -/
structure AppState where
  currentAccount : String
  companyContractAddress : Json
  customerSatisfactionContractAddress : Json
  deriving DecidableEq, Repr

/-- The initial values of the `useState` cells of `App`. -/
def AppState.initial : AppState :=
  { currentAccount := "", companyContractAddress := .str "",
    customerSatisfactionContractAddress := .str "" }

namespace CompanyApp

/-- The function `loadContracts` of `company-dapp/src/App.js`, run once by the
mount effect. An error is an exception escaping the effect. -/
def loadContracts (ls : LocalStorage) (app : AppState) : Except JsError AppState := do
  let saved ← ls.getItem
  match saved with
  | none => pure app
  | some text =>
    if text.truthy then do
      let parsed ← jsonParse text
      let (company, customerSatisfaction) ← destructureAddresses parsed
      pure { app with
        companyContractAddress := jsOr company (.str ""),
        customerSatisfactionContractAddress := jsOr customerSatisfaction (.str "") }
    else pure app

end CompanyApp

namespace CustomerApp

/-- The mount effect of `customer-dapp/src/App.js` that loads the contract
addresses. -/
def loadEffect (ls : LocalStorage) (app : AppState) : Except JsError AppState := do
  let saved ← ls.getItem
  match saved with
  | none => pure app
  | some text =>
    if text.truthy then do
      let parsed ← jsonParse text
      let (company, customerSatisfaction) ← destructureAddresses parsed
      pure { app with
        companyContractAddress := jsOr company (.str ""),
        customerSatisfactionContractAddress := jsOr customerSatisfaction (.str "") }
    else pure app

end CustomerApp

/-! ## Config (company-dapp) -/

/-- The state cells of `Config`: the contents of its two input fields. -/
structure ConfigState where
  newCompanyAddress : Json
  newCustomerAddress : Json
  deriving DecidableEq, Repr

/-- The company dapp while the Config page is shown: the state of `App` (whose
address cells are Config's props), Config's own state, and the storage. -/
structure ConfigSystem where
  app : AppState
  config : ConfigState
  storage : LocalStorage
  deriving DecidableEq, Repr

namespace Config

/-- The function `saveToLocalStorage` of `Config.js`. -/
def saveToLocalStorage (company customerSatisfaction : JsVal) (ls : LocalStorage) :
    Except JsError LocalStorage :=
  ls.setItem (jsonStringify (some (addressRecord company customerSatisfaction)))

/-- The storage after a handler ran `save`: an exception thrown by `setItem`
leaves the handler, and the storage is as before. -/
def storageAfter (ls : LocalStorage) (save : Except JsError LocalStorage) : LocalStorage :=
  match save with
  | .ok ls' => ls'
  | .error _ => ls

/-- The handler `handleCompanySubmit`. -/
def handleCompanySubmit (s : ConfigSystem) : ConfigSystem :=
  if s.config.newCompanyAddress.truthy then
    { s with
      app := { s.app with companyContractAddress := s.config.newCompanyAddress },
      storage := storageAfter s.storage
        (saveToLocalStorage (some s.config.newCompanyAddress)
          (some s.app.customerSatisfactionContractAddress) s.storage) }
  else s

/-- The handler `handleCustomerSubmit`. -/
def handleCustomerSubmit (s : ConfigSystem) : ConfigSystem :=
  if s.config.newCustomerAddress.truthy then
    { s with
      app := { s.app with customerSatisfactionContractAddress := s.config.newCustomerAddress },
      storage := storageAfter s.storage
        (saveToLocalStorage (some s.app.companyContractAddress)
          (some s.config.newCustomerAddress) s.storage) }
  else s

/-- Mounting `Config`: both input fields start from the props. -/
def mount (app : AppState) (ls : LocalStorage) : ConfigSystem :=
  { app := app,
    config := { newCompanyAddress := app.companyContractAddress,
                newCustomerAddress := app.customerSatisfactionContractAddress },
    storage := ls }

end Config

/-- What the user can do on the Config page. -/
inductive ConfigOp where
  | typeCompany (text : String)
  | typeCustomer (text : String)
  | submitCompany
  | submitCustomer
  deriving DecidableEq, Repr

/-- One user action on the Config page. -/
def ConfigSystem.step (s : ConfigSystem) : ConfigOp → ConfigSystem
  | .typeCompany text => { s with config := { s.config with newCompanyAddress := .str text } }
  | .typeCustomer text => { s with config := { s.config with newCustomerAddress := .str text } }
  | .submitCompany => Config.handleCompanySubmit s
  | .submitCustomer => Config.handleCustomerSubmit s

/-- A finite sequence of user actions on the Config page. -/
def ConfigSystem.run (s : ConfigSystem) (ops : List ConfigOp) : ConfigSystem :=
  ops.foldl ConfigSystem.step s

/-- The two address fields as a load of the persisted record returns them. -/
def savedAddresses (ls : LocalStorage) : Except JsError (Json × Json) :=
  (CompanyApp.loadContracts ls AppState.initial).map
    (fun a => (a.companyContractAddress, a.customerSatisfactionContractAddress))

/-- The property `name` of the persisted record as stored (`undefined` when
there is no record, or no such property). -/
def storedField (ls : LocalStorage) (name : String) : JsVal :=
  match ls.contractAddresses with
  | some (.json v) => v.prop name
  | _ => none

/-- The state of `App` is the one loaded from the persisted record. -/
def LoadedFrom (s : ConfigSystem) : Prop :=
  CompanyApp.loadContracts s.storage AppState.initial
    = .ok { AppState.initial with
        companyContractAddress := s.app.companyContractAddress,
        customerSatisfactionContractAddress := s.app.customerSatisfactionContractAddress }

/-! ## contractStorage (customer-dapp utility) -/

namespace contractStorage

/-- The function `saveContracts`: the `catch` block logs and rethrows. -/
def saveContracts (contracts : JsVal) (ls : LocalStorage) : Except JsError LocalStorage :=
  match ls.setItem (jsonStringify contracts) with
  | .ok ls' => .ok ls'
  | .error e => .error e

/-- The body of the `try` block of `loadContracts`. -/
def loadContractsTry (ls : LocalStorage) : Except JsError Json := do
  let data ← ls.getItem
  match data with
  | some text => if text.truthy then jsonParse text else pure (.obj .nil)
  | none => pure (.obj .nil)

/-- The function `loadContracts`: whatever the `try` block throws, the `catch`
block returns the empty object. -/
def loadContracts (ls : LocalStorage) : Except JsError Json :=
  match loadContractsTry ls with
  | .ok v => .ok v
  | .error _ => .ok (.obj .nil)

end contractStorage

/-! ## ethers, the wallet provider and the chain -/

/-- An `ethers.Wallet`: a private key and the address derived from it. -/
structure Wallet where
  privateKey : String
  address : String
  deriving DecidableEq, Repr

/-- The record a Company contract read returns for a bottle (`getTokenData`,
`tokenMetadata`), with the field names the components read. -/
structure TokenMetadata where
  name : String
  description : String
  capacity : String
  bottle_owner : String
  address_bottle : String
  address_company : String
  deriving DecidableEq, Repr

/-- Who signs a contract call. -/
inductive Signer where
  | provider
  | connectedWallet
  | bottleKey (privateKey : String)
  deriving DecidableEq, Repr

/-- A call that leaves the component. -/
inductive Event where
  | newWallet (privateKey : String)
  | newSigner (privateKey : String)
  | read (contract : Json) (method : String) (args : List Json)
  | send (signer : Signer) (contract : Json) (method : String) (args : List Json)
  | wait
  deriving DecidableEq, Repr

/-- The `ethers` library and the chain as one run reads them: each field is
the answer to the call named in its comment. -/
structure Ethers where
  /-- The constructor `new ethers.Wallet(privateKey)`. -/
  wallet : String → Except JsError Wallet
  /-- The constructor `new ethers.providers.Web3Provider(window.ethereum)`. -/
  web3Provider : Except JsError Unit
  /-- The read `companyContract.getTokenData(bottleAddress)`. -/
  getTokenData : Json → String → Except JsError TokenMetadata
  /-- The read `companyContract.bottleNFTId()`. -/
  bottleNFTId : Json → Except JsError Nat
  /-- The read `companyContract.tokenMetadata(tokenId)`. -/
  tokenMetadata : Json → Nat → Except JsError TokenMetadata
  /-- The read `satisfactionContract.mintedSatisfToken(bottleAddress)`. -/
  mintedSatisfToken : Json → String → Except JsError Nat

/-- What becomes of a submitted transaction: the contract method call throws
(`rejected`), or the transaction is sent and `tx.wait()` throws (`failed`), or
it is confirmed, after which reads are answered by `after`. -/
inductive TxOutcome (α : Type) where
  | rejected (e : JsError)
  | failed (e : JsError)
  | confirmed (after : α)

/-- The injected wallet provider `window.ethereum` as LabelCreation uses it. -/
structure WalletProvider where
  present : Bool
  /-- The request `eth_accounts`. -/
  accounts : Except JsError (List String)

/-- Where a `try` block stopped: the state reached, the calls made, and the
error thrown, if any. -/
structure Outcome (σ : Type) where
  state : σ
  events : List Event
  thrown : Option JsError

/-! ## ScanLabel (customer-dapp) -/

/-- The state cell `contracts` of ScanLabel and LabelCreation. -/
structure Contracts where
  company : JsVal
  customerSatisfaction : JsVal
  deriving DecidableEq, Repr

/-- The state cell `tokenData`: the metadata spread, plus `bottleAddress`. -/
structure TokenData where
  metadata : TokenMetadata
  bottleAddress : String
  deriving DecidableEq, Repr

/-- The state cells of `ScanLabel`. -/
structure ScanLabelState where
  scanResult : String
  bottleWallet : Option Wallet
  tokenData : Option TokenData
  loading : Bool
  error : String
  txStatus : String
  isConnected : Bool
  contracts : Contracts
  deriving DecidableEq, Repr

namespace ScanLabel

/-- The initial values of the `useState` cells. -/
def initial : ScanLabelState :=
  { scanResult := "", bottleWallet := none, tokenData := none, loading := false,
    error := "", txStatus := "", isConnected := false,
    contracts := { company := some (.str ""), customerSatisfaction := some (.str "") } }

/-- The mount effect that loads the contract addresses. -/
def loadEffect (ls : LocalStorage) (s : ScanLabelState) : Except JsError ScanLabelState := do
  let saved ← ls.getItem
  match saved with
  | none => pure s
  | some text =>
    if text.truthy then do
      let parsed ← jsonParse text
      let (company, customerSatisfaction) ← destructureAddresses parsed
      pure { s with contracts := { company := company, customerSatisfaction := customerSatisfaction } }
    else pure s

/-- The effect on `currentAccount`: `setIsConnected(!!currentAccount)`. -/
def connectionEffect (currentAccount : String) (s : ScanLabelState) : ScanLabelState :=
  { s with isConnected := currentAccount != "" }

/-- The class `[0-9a-fA-F]`. -/
def isHexDigit (c : Char) : Bool :=
  ('0' ≤ c && c ≤ '9') || ('a' ≤ c && c ≤ 'f') || ('A' ≤ c && c ≤ 'F')

/-- The test `s.match(/^0x[0-9a-fA-F]{64}$/)`. -/
def matchesKeyPattern (s : String) : Bool :=
  match s.data with
  | '0' :: 'x' :: rest => rest.length == 64 && rest.all isHexDigit
  | _ => false

/-- The constant `formattedPk` of `verifyBottle`. -/
def formatKey (privateKey : String) : String :=
  if startsWith0x privateKey then privateKey else "0x" ++ privateKey

/-- The contract address handed to `new ethers.Contract`. -/
def contractAddress (v : JsVal) : Json := v.getD .null

/-- The `try` block of `verifyBottle`. -/
def verifyBottleTry (E : Ethers) (currentAccount privateKey : String) (s : ScanLabelState) :
    Outcome ScanLabelState :=
  if privateKey = "" then ⟨s, [], some (mkError "No private key provided")⟩
  else if currentAccount = "" then ⟨s, [], some (mkError "Wallet not connected")⟩
  else
    let formattedPk := formatKey privateKey
    if !matchesKeyPattern formattedPk then ⟨s, [], some (mkError "Invalid private key format")⟩
    else
      match E.wallet formattedPk with
      | .error e => ⟨s, [.newWallet formattedPk], some e⟩
      | .ok wallet =>
        let s1 := { s with bottleWallet := some wallet }
        let bottleAddress := wallet.address
        if !truthy s.contracts.company then
          ⟨s1, [.newWallet formattedPk], some (mkError "Company contract address not configured")⟩
        else
          match E.web3Provider with
          | .error e => ⟨s1, [.newWallet formattedPk], some e⟩
          | .ok _ =>
            let company := contractAddress s.contracts.company
            let call := Event.read company "getTokenData" [.str bottleAddress]
            match E.getTokenData company bottleAddress with
            | .error e => ⟨s1, [.newWallet formattedPk, call], some e⟩
            | .ok metadata =>
              ⟨{ s1 with tokenData := some ⟨metadata, bottleAddress⟩ },
                [.newWallet formattedPk, call], none⟩

/-- The function `verifyBottle`: the four resets, the `try` block, the `catch`
block (`setError(err.message)`) and the `finally` block. -/
def verifyBottle (E : Ethers) (currentAccount privateKey : String) (s : ScanLabelState) :
    ScanLabelState × List Event :=
  let s0 := { s with loading := true, error := "", tokenData := none, txStatus := "" }
  let r := verifyBottleTry E currentAccount privateKey s0
  let s1 :=
    match r.thrown with
    | some err => { r.state with error := err.message }
    | none => r.state
  ({ s1 with loading := false }, r.events)

/-- The `try` block of `setBottleOwner`. -/
def setBottleOwnerTry (E : Ethers) (tx : TxOutcome Ethers) (currentAccount : String)
    (s : ScanLabelState) : Outcome ScanLabelState :=
  match s.bottleWallet with
  | none => ⟨s, [], some (mkError "Missing required data for ownership transfer")⟩
  | some bottleWallet =>
    if currentAccount = "" || !truthy s.contracts.company then
      ⟨s, [], some (mkError "Missing required data for ownership transfer")⟩
    else
      match E.web3Provider with
      | .error e => ⟨s, [], some e⟩
      | .ok _ =>
        match E.wallet bottleWallet.privateKey with
        | .error e => ⟨s, [.newSigner bottleWallet.privateKey], some e⟩
        | .ok _ =>
          let company := contractAddress s.contracts.company
          let s1 := { s with txStatus := "Sending ownership transfer transaction..." }
          let calls := [Event.newSigner bottleWallet.privateKey,
            Event.send (.bottleKey bottleWallet.privateKey) company "setAddressOwner"
              [.str currentAccount]]
          match tx with
          | .rejected e => ⟨s1, calls, some e⟩
          | .failed e =>
            ⟨{ s1 with txStatus := "Transaction sent, waiting for confirmation..." },
              calls ++ [.wait], some e⟩
          | .confirmed after =>
            let s2 := { s1 with txStatus := "Ownership transferred successfully!" }
            let r := verifyBottle after currentAccount bottleWallet.privateKey s2
            ⟨r.1, calls ++ [.wait] ++ r.2, none⟩

/-- The function `setBottleOwner`. -/
def setBottleOwner (E : Ethers) (tx : TxOutcome Ethers) (currentAccount : String)
    (s : ScanLabelState) : ScanLabelState × List Event :=
  let s0 := { s with loading := true, error := "", txStatus := "Preparing ownership transfer..." }
  let r := setBottleOwnerTry E tx currentAccount s0
  let s1 :=
    match r.thrown with
    | some err => { r.state with error := "Ownership transfer failed: " ++ err.message }
    | none => r.state
  ({ s1 with loading := false }, r.events)

/-- The callback given to `QrScanner`: `setScanResult(result.data)` and
`verifyBottle(result.data)`. -/
def onScan (E : Ethers) (currentAccount data : String) (s : ScanLabelState) :
    ScanLabelState × List Event :=
  verifyBottle E currentAccount data { s with scanResult := data }

/-- The handler of 'Scan Again' and 'Scan Another Bottle'. -/
def scanAgain (s : ScanLabelState) : ScanLabelState := { s with scanResult := "" }

/-- The condition under which the bottle details show the button
'Set Me As Bottle Owner'. -/
def transferOffered (bottle_owner currentAccount : String) : Bool :=
  bottle_owner != toLowerCase currentAccount

/-- What `ScanLabel` renders below its header. -/
inductive View where
  | connectionPrompt
  | scanner
  | loading
  | errorMessage (error : String)
  | bottleDetails (tokenData : TokenData) (transferButton : Bool) (transferDisabled : Bool)
      (txStatus : Option String)
  | blank
  deriving DecidableEq, Repr

/-- The JSX returned by `ScanLabel`. -/
def render (currentAccount : String) (s : ScanLabelState) : View :=
  if !s.isConnected then .connectionPrompt
  else if s.scanResult = "" then .scanner
  else if s.loading then .loading
  else if s.error != "" then .errorMessage s.error
  else
    match s.tokenData with
    | some tokenData =>
      .bottleDetails tokenData (transferOffered tokenData.metadata.bottle_owner currentAccount)
        s.loading (if s.txStatus != "" then some s.txStatus else none)
    | none => .blank

end ScanLabel

/-! ## CustomerBottles (customer-dapp) -/

/-- One entry of the state cell `bottles`. -/
structure Bottle where
  tokenId : Nat
  name : String
  description : String
  capacity : String
  ownerAddress : String
  bottleAddress : String
  companyAddress : String
  hasCertificate : Bool
  deriving DecidableEq, Repr

/-- The props of `CustomerBottles`, passed down from the state of `App`. -/
structure BottlesProps where
  currentAccount : String
  companyContractAddress : Json
  customerSatisfactionContractAddress : Json
  deriving DecidableEq, Repr

/-- The state cell `txStatus` of `CustomerBottles` when it is not `null`. -/
structure TxStatus where
  status : String
  message : String
  deriving DecidableEq, Repr

/-- The state cells of `CustomerBottles` (the debug log apart). -/
structure BottlesState where
  bottles : List Bottle
  loading : Bool
  error : String
  txStatus : Option TxStatus
  deriving DecidableEq, Repr

namespace CustomerBottles

/-- The initial values of the `useState` cells. -/
def initial : BottlesState :=
  { bottles := [], loading := true, error := "", txStatus := none }

/-- The record pushed for an owned bottle. -/
def mkBottle (tokenId : Nat) (metadata : TokenMetadata) (certificateTokenId : Nat) : Bottle :=
  { tokenId := tokenId, name := metadata.name, description := metadata.description,
    capacity := metadata.capacity, ownerAddress := metadata.bottle_owner,
    bottleAddress := metadata.address_bottle, companyAddress := metadata.address_company,
    hasCertificate := decide (certificateTokenId > 0) }

/-- The body of the `for` loop of `fetchBottles` for one token id, with its
own `try` / `catch`: an error is logged and the loop continues. The
accumulator is `customerBottles` and the calls made so far. -/
def processToken (E : Ethers) (P : BottlesProps) (tokenId : Nat)
    (acc : List Bottle × List Event) : List Bottle × List Event :=
  let readMeta := Event.read P.companyContractAddress "tokenMetadata" [.num tokenId]
  match E.tokenMetadata P.companyContractAddress tokenId with
  | .error _ => (acc.1, acc.2 ++ [readMeta])
  | .ok metadata =>
    let bottleAddress := metadata.address_bottle
    let ownerAddress := metadata.bottle_owner
    if toLowerCase ownerAddress = toLowerCase P.currentAccount then
      let readCert :=
        Event.read P.customerSatisfactionContractAddress "mintedSatisfToken" [.str bottleAddress]
      match E.mintedSatisfToken P.customerSatisfactionContractAddress bottleAddress with
      | .error _ => (acc.1, acc.2 ++ [readMeta, readCert])
      | .ok certificateTokenId =>
        (acc.1 ++ [mkBottle tokenId metadata certificateTokenId], acc.2 ++ [readMeta, readCert])
    else (acc.1, acc.2 ++ [readMeta])

/-- The loop `for (let tokenId = 1; tokenId <= totalSupply; tokenId++)`, from
the current `tokenId`; `fuel` bounds the number of iterations. -/
def forTokens (E : Ethers) (P : BottlesProps) (totalSupply : Nat) :
    Nat → Nat → List Bottle × List Event → List Bottle × List Event
  | 0, _, acc => acc
  | fuel + 1, tokenId, acc =>
    if tokenId ≤ totalSupply then
      forTokens E P totalSupply fuel (tokenId + 1) (processToken E P tokenId acc)
    else acc

/-- The outer `try` block of `fetchBottles`. -/
def fetchBottlesTry (E : Ethers) (P : BottlesProps) (s : BottlesState) : Outcome BottlesState :=
  match E.web3Provider with
  | .error e => ⟨s, [], some e⟩
  | .ok _ =>
    let readSupply := Event.read P.companyContractAddress "bottleNFTId" []
    match E.bottleNFTId P.companyContractAddress with
    | .error e => ⟨s, [readSupply], some e⟩
    | .ok totalSupply =>
      let r := forTokens E P totalSupply totalSupply 1 ([], [readSupply])
      ⟨{ s with bottles := r.1 }, r.2, none⟩

/-- The message built when a prop is missing. -/
def missingProps (P : BottlesProps) : String :=
  "Missing required props: " ++
    (if P.currentAccount = "" then "currentAccount " else "") ++
    (if !P.companyContractAddress.truthy then "companyContractAddress " else "") ++
    (if !P.customerSatisfactionContractAddress.truthy then "customerSatisfactionContractAddress"
      else "")

/-- The function `fetchBottles`. -/
def fetchBottles (E : Ethers) (P : BottlesProps) (s : BottlesState) :
    BottlesState × List Event :=
  if P.currentAccount = "" || !P.companyContractAddress.truthy
      || !P.customerSatisfactionContractAddress.truthy then
    ({ s with error := missingProps P, loading := false }, [])
  else
    let s0 := { s with loading := true, error := "" }
    let r := fetchBottlesTry E P s0
    let s1 :=
      match r.thrown with
      | some err => { r.state with error := "Fatal error: " ++ err.message }
      | none => r.state
    ({ s1 with loading := false }, r.events)

/-- The condition under which a bottle card shows 'Mint Certificate'. -/
def mintCertificateOffered (bottle : Bottle) : Bool := !bottle.hasCertificate

/-- One rendered bottle card: the bottle, whether the 'Mint Certificate'
button is shown, and whether it is disabled. -/
structure Card where
  bottle : Bottle
  mintButton : Bool
  mintDisabled : Bool
  deriving DecidableEq, Repr

/-- What `CustomerBottles` renders. -/
inductive View where
  | loading
  | error (message : String)
  | list (cards : List Card)
  deriving DecidableEq, Repr

/-- The JSX returned by `CustomerBottles`. -/
def render (s : BottlesState) : View :=
  if s.loading then .loading
  else if s.error != "" then .error s.error
  else
    .list (s.bottles.map fun bottle =>
      { bottle := bottle, mintButton := mintCertificateOffered bottle,
        mintDisabled :=
          match s.txStatus with
          | some t => t.status = "pending"
          | none => false })

end CustomerBottles

/-! ## LabelCreation (company-dapp) -/

/-- The state cells of `LabelCreation`. -/
structure LabelState where
  contracts : Contracts
  privateKey : String
  bottleAddress : String
  useExistingAddress : Bool
  name : String
  description : String
  capacity : String
  txStatus : String
  loading : Bool
  mintSuccess : Bool
  showPrintView : Bool
  deriving DecidableEq, Repr

namespace LabelCreation

/-- The initial values of the `useState` cells. -/
def initial : LabelState :=
  { contracts := { company := some .null, customerSatisfaction := some .null },
    privateKey := "", bottleAddress := "", useExistingAddress := false,
    name := "", description := "", capacity := "", txStatus := "",
    loading := true, mintSuccess := false, showPrintView := false }

/-- The mount effect: load the contract addresses, then `setLoading(false)`. -/
def loadEffect (ls : LocalStorage) (s : LabelState) : Except JsError LabelState := do
  let saved ← ls.getItem
  match saved with
  | none => pure { s with loading := false }
  | some text =>
    if text.truthy then do
      let parsed ← jsonParse text
      let (company, customerSatisfaction) ← destructureAddresses parsed
      pure { s with
        contracts := { company := company, customerSatisfaction := customerSatisfaction },
        loading := false }
    else pure { s with loading := false }

/-- The steps of a `try` block up to the signer: the provider is present and
`eth_accounts` answers a non-empty list. -/
def connectedSigner (W : WalletProvider) : Except JsError Unit :=
  if !W.present then .error (mkError "MetaMask is not installed")
  else
    match W.accounts with
    | .error e => .error e
    | .ok accounts =>
      if accounts.length = 0 then .error (mkError "Please connect your wallet first")
      else .ok ()

/-- The `try` block of `registerBottleAddress`. -/
def registerBottleAddressTry (W : WalletProvider) (tx : TxOutcome Unit) (s : LabelState) :
    Outcome LabelState :=
  let s1 := { s with txStatus := "Registering bottle address..." }
  match connectedSigner W with
  | .error e => ⟨s1, [], some e⟩
  | .ok _ =>
    let call := Event.send .connectedWallet (ScanLabel.contractAddress s.contracts.company)
      "registerBottleAddress" [.str s.bottleAddress]
    match tx with
    | .rejected e => ⟨s1, [call], some e⟩
    | .failed e =>
      ⟨{ s1 with txStatus := "Transaction sent, waiting for confirmation..." },
        [call, .wait], some e⟩
    | .confirmed _ =>
      ⟨{ s1 with txStatus := "Bottle address registered successfully!" }, [call, .wait], none⟩

/-- The function `registerBottleAddress`. -/
def registerBottleAddress (W : WalletProvider) (tx : TxOutcome Unit) (s : LabelState) :
    LabelState × List Event :=
  if s.bottleAddress = "" || !truthy s.contracts.company then
    ({ s with txStatus :=
        "Please generate or enter a bottle address and ensure Company contract is configured" },
      [])
  else
    let r := registerBottleAddressTry W tx s
    match r.thrown with
    | some error => ({ r.state with txStatus := "Error: " ++ error.message }, r.events)
    | none => (r.state, r.events)

/-- The `try` block of `mintBottle`. -/
def mintBottleTry (W : WalletProvider) (tx : TxOutcome Unit) (s : LabelState) :
    Outcome LabelState :=
  let s1 := { s with txStatus := "Minting bottle NFT...", mintSuccess := false }
  match connectedSigner W with
  | .error e => ⟨s1, [], some e⟩
  | .ok _ =>
    let call := Event.send .connectedWallet (ScanLabel.contractAddress s.contracts.company)
      "mint" [.str s.bottleAddress, .str s.description, .str s.name, .str s.capacity]
    match tx with
    | .rejected e => ⟨s1, [call], some e⟩
    | .failed e =>
      ⟨{ s1 with txStatus := "Mint transaction sent, waiting for confirmation..." },
        [call, .wait], some e⟩
    | .confirmed _ =>
      ⟨{ s1 with txStatus := "Bottle NFT minted successfully!", mintSuccess := true },
        [call, .wait], none⟩

/-- The function `mintBottle`. -/
def mintBottle (W : WalletProvider) (tx : TxOutcome Unit) (s : LabelState) :
    LabelState × List Event :=
  if s.bottleAddress = "" || !truthy s.contracts.company || s.name = ""
      || s.description = "" || s.capacity = "" then
    ({ s with txStatus := "Please fill all fields and ensure Company contract is configured" },
      [])
  else
    let r := mintBottleTry W tx s
    match r.thrown with
    | some error =>
      ({ r.state with txStatus := "Error: " ++ error.message, mintSuccess := false }, r.events)
    | none => (r.state, r.events)

/-- The QR value of the label section, when the section is rendered
(`mintSuccess && privateKey`). -/
def labelSection (s : LabelState) : Option String :=
  if s.mintSuccess && s.privateKey != "" then some s.privateKey else none

/-- Whether the button 'Register Bottle Address' is rendered. -/
def registerButton (s : LabelState) : Bool :=
  s.bottleAddress != "" && truthy s.contracts.company

/-- The `disabled` attribute of the button 'Mint Bottle NFT'. -/
def mintDisabled (s : LabelState) : Bool :=
  s.bottleAddress = "" || !truthy s.contracts.company || s.name = ""
    || s.description = "" || s.capacity = ""

end LabelCreation

/-- What the user can do on the LabelCreation page, with the answers of the
wallet provider and the chain to the two transaction workflows. -/
inductive LabelAction where
  | selectGenerateNew
  | selectUseExisting
  | generateKeyPair (wallet : Wallet)
  | editBottleAddress (text : String)
  | editName (text : String)
  | editDescription (text : String)
  | editCapacity (text : String)
  | register (W : WalletProvider) (tx : TxOutcome Unit)
  | mint (W : WalletProvider) (tx : TxOutcome Unit)

/-- One user action on the rendered page. A control that is not rendered, or
is disabled, in the current state cannot be used: the action changes
nothing. `generateKeyPair wallet` is a click on 'Generate New Key Pair' for
which `ethers.Wallet.createRandom()` returns `wallet`. -/
def LabelState.step (s : LabelState) : LabelAction → LabelState
  | .selectGenerateNew => if s.loading then s else { s with useExistingAddress := false }
  | .selectUseExisting => if s.loading then s else { s with useExistingAddress := true }
  | .generateKeyPair wallet =>
    if s.loading || s.useExistingAddress then s
    else { s with privateKey := wallet.privateKey, bottleAddress := wallet.address }
  | .editBottleAddress text =>
    if s.loading || !s.useExistingAddress then s else { s with bottleAddress := text }
  | .editName text => if s.loading then s else { s with name := text }
  | .editDescription text => if s.loading then s else { s with description := text }
  | .editCapacity text => if s.loading then s else { s with capacity := text }
  | .register W tx =>
    if s.loading || !LabelCreation.registerButton s then s
    else (LabelCreation.registerBottleAddress W tx s).1
  | .mint W tx =>
    if s.loading || LabelCreation.mintDisabled s then s
    else (LabelCreation.mintBottle W tx s).1

/-- A finite sequence of user actions on the LabelCreation page. -/
def LabelState.run (s : LabelState) (actions : List LabelAction) : LabelState :=
  actions.foldl LabelState.step s

/-- The states of LabelCreation the user can reach: the mount effect has run
on some storage content without throwing, then any actions. -/
def LabelCreation.Reachable (s : LabelState) : Prop :=
  ∃ (ls : LocalStorage) (s0 : LabelState) (actions : List LabelAction),
    LabelCreation.loadEffect ls LabelCreation.initial = .ok s0 ∧ s = s0.run actions

/-! ## App: the wallet session -/

/-- A function object registered as a listener. Listeners are compared by
identity, `id`; `setsAccount` tells the handler of `App`,
`(accounts) => setCurrentAccount(accounts[0] || '')`, from the empty function
`() => {}`. -/
structure Listener where
  id : Nat
  setsAccount : Bool
  deriving DecidableEq, Repr

/-- The injected provider `window.ethereum`. -/
structure Ethereum where
  /-- The request `eth_requestAccounts`. -/
  requestAccounts : Except JsError (List String)
  /-- The request `eth_accounts`. -/
  accounts : Except JsError (List String)
  /-- The listeners registered for 'accountsChanged', oldest first. -/
  listeners : List Listener

/-- The browser window as `App` uses it. Every evaluation of a function
expression creates a function object distinct from all earlier ones:
`functionsCreated` counts them and is the identity of the next one. -/
structure Window where
  ethereum : Option Ethereum
  functionsCreated : Nat

/-- The call `window.ethereum.on('accountsChanged', listener)`. -/
def Ethereum.on (eth : Ethereum) (listener : Listener) : Ethereum :=
  { eth with listeners := eth.listeners ++ [listener] }

/-- The call `window.ethereum.removeListener('accountsChanged', listener)`: the
most recently added registration of that very function object is removed, if
there is one. -/
def Ethereum.removeListener (eth : Ethereum) (listener : Listener) : Ethereum :=
  { eth with
    listeners := (eth.listeners.reverse.eraseP (fun l => l.id == listener.id)).reverse }

/-- The provider emits 'accountsChanged' with `accounts`: every registered
listener is called, oldest first. The result lists the arguments of the calls
of `setCurrentAccount` this makes, `accounts[0] || ''` each. -/
def Ethereum.emitAccountsChanged (eth : Ethereum) (accounts : List String) : List String :=
  eth.listeners.filterMap fun l =>
    if l.setsAccount then some (accounts.head?.getD "") else none

/-- What a call of an async function of `App` leaves behind: the state of
`App`, how the returned promise settles (`error` is a rejection the caller
gets), the alerts shown and the errors written with `console.error`. -/
structure SessionResult where
  app : AppState
  result : Except JsError Unit
  alerts : List String
  logged : List JsError
  deriving Repr

/-- The expression `accounts[0]`; `undefined` (empty list) is kept as the empty
string, which is falsy like it. -/
def firstAccount (accounts : List String) : String := accounts.head?.getD ""

namespace App

/-- The `try` block of `connectWallet`. -/
def connectWalletTry (eth : Ethereum) (app : AppState) : Except JsError AppState := do
  let accounts ← eth.requestAccounts
  pure { app with currentAccount := firstAccount accounts }

/-- The function `connectWallet` (the same in both dapps): the `catch` block
logs the error and rethrows nothing; without a provider an alert is shown. -/
def connectWallet (ethereum : Option Ethereum) (app : AppState) : SessionResult :=
  match ethereum with
  | some eth =>
    match connectWalletTry eth app with
    | .ok app' => { app := app', result := .ok (), alerts := [], logged := [] }
    | .error error => { app := app, result := .ok (), alerts := [], logged := [error] }
  | none => { app := app, result := .ok (), alerts := ["Please install MetaMask!"], logged := [] }

/-- The `try` block of `checkWalletConnection`. -/
def checkWalletConnectionTry (eth : Ethereum) (app : AppState) : Except JsError AppState := do
  let accounts ← eth.accounts
  if accounts.length > 0 then pure { app with currentAccount := firstAccount accounts }
  else pure app

/-- The function `checkWalletConnection` (the same in both dapps). -/
def checkWalletConnection (ethereum : Option Ethereum) (app : AppState) : SessionResult :=
  match ethereum with
  | some eth =>
    match checkWalletConnectionTry eth app with
    | .ok app' => { app := app', result := .ok (), alerts := [], logged := [] }
    | .error error => { app := app, result := .ok (), alerts := [], logged := [error] }
  | none => { app := app, result := .ok (), alerts := [], logged := [] }

/-- The body of the wallet effect of `App`, run on mount:
`checkWalletConnection()`, then the registration of a new handler for
'accountsChanged'. -/
def walletEffect (w : Window) (app : AppState) : Window × AppState :=
  let app' := (checkWalletConnection w.ethereum app).app
  match w.ethereum with
  | some eth =>
    ({ ethereum := some (eth.on ⟨w.functionsCreated, true⟩),
       functionsCreated := w.functionsCreated + 1 }, app')
  | none => (w, app')

/-- The cleanup of the wallet effect, run on teardown:
`removeListener('accountsChanged', () => {})`, whose argument is a function
object created by this very call. -/
def walletEffectCleanup (w : Window) : Window :=
  match w.ethereum with
  | some eth =>
    { ethereum := some (eth.removeListener ⟨w.functionsCreated, false⟩),
      functionsCreated := w.functionsCreated + 1 }
  | none => w

/-- The listeners registered for 'accountsChanged' on the provider, if any. -/
def listeners (w : Window) : List Listener :=
  match w.ethereum with
  | some eth => eth.listeners
  | none => []

/-- The calls of `setCurrentAccount` an 'accountsChanged' notification makes. -/
def accountsChanged (w : Window) (accounts : List String) : List String :=
  match w.ethereum with
  | some eth => eth.emitAccountsChanged accounts
  | none => []

/-- The state of the mounted `App` after calls of `setCurrentAccount`. -/
def setCurrentAccounts (app : AppState) (calls : List String) : AppState :=
  calls.foldl (fun a account => { a with currentAccount := account }) app

end App

/-! ## CustomerBottles: mintCertificate -/

namespace CustomerBottles

/-- The `try` block of `mintCertificate`. After the confirmation the bottle
list is fetched again (`fetchBottles()`, from the chain as it then is). -/
def mintCertificateTry (E : Ethers) (tx : TxOutcome Ethers) (P : BottlesProps)
    (bottleAddress : String) (s : BottlesState) : Outcome BottlesState :=
  let s1 := { s with txStatus := some ⟨"pending", "Preparing transaction..."⟩ }
  match E.web3Provider with
  | .error e => ⟨s1, [], some e⟩
  | .ok _ =>
    let s2 := { s1 with
      txStatus := some ⟨"pending", "Please confirm transaction in MetaMask..."⟩ }
    let call := Event.send .connectedWallet P.customerSatisfactionContractAddress "mint"
      [P.companyContractAddress, .str bottleAddress]
    match tx with
    | .rejected e => ⟨s2, [call], some e⟩
    | .failed e =>
      ⟨{ s2 with
          txStatus := some ⟨"pending", "Transaction sent. Waiting for confirmation..."⟩ },
        [call, .wait], some e⟩
    | .confirmed after =>
      let s3 := { s2 with txStatus := some ⟨"success", "Certificate minted successfully!"⟩ }
      let r := fetchBottles after P s3
      ⟨r.1, [call, .wait] ++ r.2, none⟩

/-- The function `mintCertificate`. -/
def mintCertificate (E : Ethers) (tx : TxOutcome Ethers) (P : BottlesProps)
    (bottleAddress : String) (s : BottlesState) : BottlesState × List Event :=
  let r := mintCertificateTry E tx P bottleAddress s
  match r.thrown with
  | some err =>
    ({ r.state with txStatus := some ⟨"error", "Minting failed: " ++ err.message⟩ }, r.events)
  | none => (r.state, r.events)

/-- The timer callback set after a confirmed mint: `setTxStatus(null)`. -/
def clearTxStatus (s : BottlesState) : BottlesState := { s with txStatus := none }

/-- The states rendered while a run of `mintCertificate` is suspended at an
`await`: at the contract call, and at `tx.wait()` when the call went through. -/
def mintCertificatePending (E : Ethers) (tx : TxOutcome Ethers) (s : BottlesState) :
    List BottlesState :=
  match E.web3Provider with
  | .error _ => []
  | .ok _ =>
    let s2 := { s with
      txStatus := some ⟨"pending", "Please confirm transaction in MetaMask..."⟩ }
    match tx with
    | .rejected _ => [s2]
    | _ =>
      [s2, { s2 with
        txStatus := some ⟨"pending", "Transaction sent. Waiting for confirmation..."⟩ }]

end CustomerBottles

/-! ## States of a pending run -/

namespace LabelCreation

/-- The states rendered while a run of `registerBottleAddress` is suspended at
an `await`: at `eth_accounts`, at the contract call, and at `tx.wait()`. -/
def registerBottleAddressPending (W : WalletProvider) (tx : TxOutcome Unit) (s : LabelState) :
    List LabelState :=
  if s.bottleAddress = "" || !truthy s.contracts.company then []
  else
    let s1 := { s with txStatus := "Registering bottle address..." }
    if !W.present then []
    else
      match connectedSigner W with
      | .error _ => [s1]
      | .ok _ =>
        match tx with
        | .rejected _ => [s1, s1]
        | _ => [s1, s1, { s1 with txStatus := "Transaction sent, waiting for confirmation..." }]

/-- The states rendered while a run of `mintBottle` is suspended at an `await`:
at `eth_accounts`, at the contract call, and at `tx.wait()`. -/
def mintBottlePending (W : WalletProvider) (tx : TxOutcome Unit) (s : LabelState) :
    List LabelState :=
  if s.bottleAddress = "" || !truthy s.contracts.company || s.name = ""
      || s.description = "" || s.capacity = "" then []
  else
    let s1 := { s with txStatus := "Minting bottle NFT...", mintSuccess := false }
    if !W.present then []
    else
      match connectedSigner W with
      | .error _ => [s1]
      | .ok _ =>
        match tx with
        | .rejected _ => [s1, s1]
        | _ =>
          [s1, s1, { s1 with txStatus := "Mint transaction sent, waiting for confirmation..." }]

end LabelCreation

namespace ScanLabel

/-- The state rendered while a run of `verifyBottle` is suspended at its one
`await`, the `getTokenData` read, when the run gets there. -/
def verifyBottlePending (E : Ethers) (currentAccount privateKey : String)
    (s : ScanLabelState) : List ScanLabelState :=
  let s0 := { s with loading := true, error := "", tokenData := none, txStatus := "" }
  if privateKey = "" then []
  else if currentAccount = "" then []
  else if !matchesKeyPattern (formatKey privateKey) then []
  else
    match E.wallet (formatKey privateKey) with
    | .error _ => []
    | .ok wallet =>
      if !truthy s.contracts.company then []
      else
        match E.web3Provider with
        | .error _ => []
        | .ok _ => [{ s0 with bottleWallet := some wallet }]

/-- The states rendered while a run of `setBottleOwner` is suspended at an
`await`: at the contract call, at `tx.wait()`, and inside the final
`verifyBottle`. -/
def setBottleOwnerPending (E : Ethers) (tx : TxOutcome Ethers) (currentAccount : String)
    (s : ScanLabelState) : List ScanLabelState :=
  let s0 := { s with loading := true, error := "", txStatus := "Preparing ownership transfer..." }
  match s.bottleWallet with
  | none => []
  | some bottleWallet =>
    if currentAccount = "" || !truthy s.contracts.company then []
    else
      match E.web3Provider with
      | .error _ => []
      | .ok _ =>
        match E.wallet bottleWallet.privateKey with
        | .error _ => []
        | .ok _ =>
          let s1 := { s0 with txStatus := "Sending ownership transfer transaction..." }
          match tx with
          | .rejected _ => [s1]
          | .failed _ =>
            [s1, { s1 with txStatus := "Transaction sent, waiting for confirmation..." }]
          | .confirmed after =>
            [s1, { s1 with txStatus := "Transaction sent, waiting for confirmation..." }]
              ++ verifyBottlePending after currentAccount bottleWallet.privateKey
                { s1 with txStatus := "Ownership transferred successfully!" }

/-- Whether a rendered view holds the button 'Scan Again'. -/
def View.scanAgain : View → Bool
  | .errorMessage _ => true
  | _ => false

/-- Whether a rendered view holds the button 'Set Me As Bottle Owner'. -/
def View.transferButton : View → Bool
  | .bottleDetails _ transferButton _ _ => transferButton
  | _ => false

end ScanLabel

/-! ## The order of status messages and calls -/

/-- One step of a run as the user or the chain sees it: a call of
`setTxStatus`, or a call that leaves the component. -/
inductive LogEntry where
  | status (message : String)
  | call (event : Event)
  deriving DecidableEq, Repr

/-- The call of a log entry, if it is one. -/
def LogEntry.event? : LogEntry → Option Event
  | .call event => some event
  | .status _ => none

/-- The status message of a log entry, if it is one. -/
def LogEntry.status? : LogEntry → Option String
  | .status message => some message
  | .call _ => none

namespace ScanLabel

/-- The log of a run of `verifyBottle`: the reset of the status, then its calls. -/
def verifyBottleLog (E : Ethers) (currentAccount privateKey : String) (s : ScanLabelState) :
    List LogEntry :=
  .status "" :: (verifyBottle E currentAccount privateKey s).2.map .call

/-- The log of a run of `setBottleOwner`: its calls of `setTxStatus` and its
calls that leave the component, in program order. -/
def setBottleOwnerLog (E : Ethers) (tx : TxOutcome Ethers) (currentAccount : String)
    (s : ScanLabelState) : List LogEntry :=
  let preparing := LogEntry.status "Preparing ownership transfer..."
  match s.bottleWallet with
  | none => [preparing]
  | some bottleWallet =>
    if currentAccount = "" || !truthy s.contracts.company then [preparing]
    else
      match E.web3Provider with
      | .error _ => [preparing]
      | .ok _ =>
        match E.wallet bottleWallet.privateKey with
        | .error _ => [preparing, .call (.newSigner bottleWallet.privateKey)]
        | .ok _ =>
          let sending := [preparing, .call (.newSigner bottleWallet.privateKey),
            .status "Sending ownership transfer transaction...",
            .call (.send (.bottleKey bottleWallet.privateKey)
              (contractAddress s.contracts.company) "setAddressOwner" [.str currentAccount])]
          match tx with
          | .rejected _ => sending
          | .failed _ =>
            sending ++ [.status "Transaction sent, waiting for confirmation...", .call .wait]
          | .confirmed after =>
            sending ++ [.status "Transaction sent, waiting for confirmation...", .call .wait,
                .status "Ownership transferred successfully!"]
              ++ verifyBottleLog after currentAccount bottleWallet.privateKey
                { s with loading := true, error := "",
                         txStatus := "Ownership transferred successfully!" }

end ScanLabel

/-! ## The bottle minted last -/

/-- The bottle address a click on 'Mint Bottle NFT' mints, when the button is
enabled and the run is confirmed. -/
def LabelState.mintedBy (s : LabelState) : LabelAction → Option String
  | .mint W tx =>
    if s.loading || LabelCreation.mintDisabled s then none
    else
      match (LabelCreation.mintBottleTry W tx s).thrown with
      | none => some s.bottleAddress
      | some _ => none
  | _ => none

/-- The bottle address of the most recent confirmed mint along a sequence of
actions from `s`, starting from `last`. -/
def LabelState.lastMinted (s : LabelState) (last : Option String) :
    List LabelAction → Option String
  | [] => last
  | action :: actions =>
    (s.step action).lastMinted ((s.mintedBy action).orElse fun _ => last) actions

/-- The `disabled` attribute of the button 'Register Bottle Address'. -/
def LabelCreation.registerDisabled (s : LabelState) : Bool :=
  s.bottleAddress = "" || !truthy s.contracts.company

/-- Whether a call is a call of a contract: a read, a transaction or the wait
for its confirmation (the construction of a wallet is not). -/
def Event.isContractCall : Event → Bool
  | .read _ _ _ => true
  | .send _ _ _ _ => true
  | .wait => true
  | .newWallet _ => false
  | .newSigner _ => false

/-! ## ScanLabel: sequences of runs -/

/-- What happens to a mounted `ScanLabel`, one completed run after the other:
the code scanner delivers a text (`setScanResult` and a run of `verifyBottle`),
the user clicks 'Set Me As Bottle Owner' (a run of `setBottleOwner`), the user
clicks 'Scan Again' or 'Scan Another Bottle', or the connected account
changes. Each run carries the account connected at its start and the answers
of the library and the chain. -/
inductive ScanAction where
  | scan (E : Ethers) (currentAccount data : String)
  | transfer (E : Ethers) (tx : TxOutcome Ethers) (currentAccount : String)
  | scanAgain
  | accountChanged (currentAccount : String)

/-- The state after one completed run. -/
def ScanLabelState.step (s : ScanLabelState) : ScanAction → ScanLabelState
  | .scan E currentAccount data => (ScanLabel.onScan E currentAccount data s).1
  | .transfer E tx currentAccount => (ScanLabel.setBottleOwner E tx currentAccount s).1
  | .scanAgain => ScanLabel.scanAgain s
  | .accountChanged currentAccount => ScanLabel.connectionEffect currentAccount s

/-- The state after a finite sequence of completed runs. -/
def ScanLabelState.run (s : ScanLabelState) (actions : List ScanAction) : ScanLabelState :=
  actions.foldl ScanLabelState.step s

/-- The states of ScanLabel reached by sequentially completed runs: the mount
effect has run on some storage content without throwing, then any runs. -/
def ScanLabel.Reachable (s : ScanLabelState) : Prop :=
  ∃ (ls : LocalStorage) (s0 : ScanLabelState) (actions : List ScanAction),
    ScanLabel.loadEffect ls ScanLabel.initial = .ok s0 ∧ s = s0.run actions

/-- The bottle shown and the stored wallet agree: when `tokenData` is not null,
the bottle wallet is not null and its address is `tokenData.bottleAddress`. -/
def ScanLabel.WalletMatches (s : ScanLabelState) : Prop :=
  ∀ tokenData, s.tokenData = some tokenData →
    ∃ wallet, s.bottleWallet = some wallet ∧ wallet.address = tokenData.bottleAddress

/-! ## Specification-side definitions -/

/-- The hexadecimal digits, either case. -/
def hexAlphabet : List Char := "0123456789abcdefABCDEF".data

/-- The spec's shape of a scanned key: exactly 64 hexadecimal characters,
optionally preceded by `0x`. -/
def IsKeyText (s : String) : Prop :=
  ∃ hex : List Char, hex.length = 64 ∧ (∀ c ∈ hex, c ∈ hexAlphabet) ∧
    (s.data = hex ∨ s.data = '0' :: 'x' :: hex)

/-- The state kept along a run on the Config page: either every write fails
(the storage never changes), or the state of `App` is the one a load returns. -/
def ConfigInv (s : ConfigSystem) : Prop :=
  s.storage.full = true ∨ LoadedFrom s

/-- The record `fetchBottles` pushes for token id `tokenId`, if it pushes one. -/
def tokenBottle (E : Ethers) (P : BottlesProps) (tokenId : Nat) : Option Bottle :=
  match E.tokenMetadata P.companyContractAddress tokenId with
  | .error _ => none
  | .ok metadata =>
    if toLowerCase metadata.bottle_owner = toLowerCase P.currentAccount then
      match E.mintedSatisfToken P.customerSatisfactionContractAddress metadata.address_bottle with
      | .error _ => none
      | .ok certificateTokenId =>
        some (CustomerBottles.mkBottle tokenId metadata certificateTokenId)
    else none

/-- The contract reads `fetchBottles` makes for token id `tokenId`. -/
def tokenReads (E : Ethers) (P : BottlesProps) (tokenId : Nat) : List Event :=
  match E.tokenMetadata P.companyContractAddress tokenId with
  | .error _ => [.read P.companyContractAddress "tokenMetadata" [.num tokenId]]
  | .ok metadata =>
    if toLowerCase metadata.bottle_owner = toLowerCase P.currentAccount then
      [.read P.companyContractAddress "tokenMetadata" [.num tokenId],
        .read P.customerSatisfactionContractAddress "mintedSatisfToken"
          [.str metadata.address_bottle]]
    else [.read P.companyContractAddress "tokenMetadata" [.num tokenId]]

/-- Whether the owner recorded for `tokenId` is the connected account, compared
without regard to letter case. -/
def ownedByAccount (E : Ethers) (P : BottlesProps) (tokenId : Nat) : Bool :=
  match E.tokenMetadata P.companyContractAddress tokenId with
  | .error _ => false
  | .ok metadata => toLowerCase metadata.bottle_owner = toLowerCase P.currentAccount

/-- Whether an action is a click on 'Generate New Key Pair'. -/
def LabelAction.isGenerate : LabelAction → Bool
  | .generateKeyPair _ => true
  | _ => false

/-! ## Sample data -/

/-- The connected account, as the wallet provider reports it (lower case). -/
def sampleAccount : String := "0x5b38da6a701c568545dcfcb03fcb875f56beddc4"

/-- The same address as `sampleAccount`, in the mixed-case checksum form in
which `ethers` returns an address read from a contract. -/
def sampleAccountChecksum : String := "0x5B38Da6a701c568545dCfcB03FcB875f56beddC4"

/-- Another account. -/
def otherAccount : String := "0xAb8483F64d9C6d1EcF9b849Ae677dD3315835cb2"

/-- The address of the Company contract. -/
def sampleCompany : String := "0xd9145CCE52D386f254917e481eB44e9943F39138"

/-- The address of the CustomerSatisfaction contract. -/
def sampleSatisfaction : String := "0xd8b934580fcE35a11B58C6D73aDeE468a2833fa8"

/-- A key pair as `ethers.Wallet.createRandom()` returns one. -/
def sampleWallet : Wallet :=
  { privateKey := "0x4c0883a69102937d6231471b5dbb6204fe5129617082792ae468d01a3f362318",
    address := "0x2c7536E3605D9C16a7a3D7b1898e529396a65c23" }

/-- The record of the bottle of `sampleWallet`, owned by `sampleAccount`. -/
def sampleMetadata : TokenMetadata :=
  { name := "Vintage Reserve 2020", description := "Red wine", capacity := "750ml",
    bottle_owner := sampleAccountChecksum, address_bottle := sampleWallet.address,
    address_company := sampleCompany }

/-- A second bottle of `sampleAccount`, which already has a certificate. -/
def certifiedMetadata : TokenMetadata :=
  { name := "Riserva 2018", description := "Red wine", capacity := "750ml",
    bottle_owner := sampleAccountChecksum,
    address_bottle := "0x4B20993Bc481177ec7E8f571ceCaE8A9e22C02db",
    address_company := sampleCompany }

/-- A bottle of `otherAccount`. -/
def otherMetadata : TokenMetadata :=
  { name := "Brut 2021", description := "Sparkling wine", capacity := "375ml",
    bottle_owner := otherAccount,
    address_bottle := "0x78731D3Ca6b7E34aC0F824c42a7cC18A495cabaB",
    address_company := sampleCompany }

/-- The error of a contract read that reverts. -/
def callException : JsError := ⟨"Error", "call revert exception"⟩

/-- A chain with three bottles: tokens 1 and 2 belong to `sampleAccount`
(token 2 has certificate 7), token 3 to `otherAccount`. -/
def sampleChain : Ethers :=
  { wallet := fun key => .ok { privateKey := toLowerCase key, address := sampleWallet.address },
    web3Provider := .ok (),
    getTokenData := fun _ bottle =>
      if bottle = sampleWallet.address then .ok sampleMetadata else .error callException,
    bottleNFTId := fun _ => .ok 3,
    tokenMetadata := fun _ tokenId =>
      match tokenId with
      | 1 => .ok sampleMetadata
      | 2 => .ok certifiedMetadata
      | 3 => .ok otherMetadata
      | _ => .error callException,
    mintedSatisfToken := fun _ bottle =>
      if bottle = certifiedMetadata.address_bottle then .ok 7 else .ok 0 }

/-- The props `CustomerBottles` gets when `sampleAccount` is connected and both
addresses are configured. -/
def sampleProps : BottlesProps :=
  { currentAccount := sampleAccount, companyContractAddress := .str sampleCompany,
    customerSatisfactionContractAddress := .str sampleSatisfaction }

/-- A storage holding a saved record with both contract addresses. -/
def configuredStorage : LocalStorage :=
  { available := true, full := false,
    contractAddresses := some (.json (addressRecord (some (.str sampleCompany))
      (some (.str sampleSatisfaction)))) }

/-- A storage with no saved record. -/
def emptyStorage : LocalStorage :=
  { available := true, full := false, contractAddresses := none }

/-- A storage whose entry is a text that is not JSON: a bare address. -/
def corruptStorage : LocalStorage :=
  { available := true, full := false, contractAddresses := some (.malformed sampleCompany) }

/-- A storage whose entry is the JSON text `null`. -/
def nullStorage : LocalStorage :=
  { available := true, full := false, contractAddresses := some (.json .null) }

/-- The company dapp on the Config page after `App` loaded `configuredStorage`. -/
def configuredSystem : ConfigSystem :=
  Config.mount
    { AppState.initial with
      companyContractAddress := .str sampleCompany,
      customerSatisfactionContractAddress := .str sampleSatisfaction }
    configuredStorage

/-- ScanLabel after the mount effect ran on `configuredStorage`, with
`sampleAccount` connected. -/
def scanReady : ScanLabelState :=
  { ScanLabel.initial with
    isConnected := true,
    contracts := { company := some (.str sampleCompany),
                   customerSatisfaction := some (.str sampleSatisfaction) } }

/-- A wallet provider with one connected account. -/
def connectedProvider : WalletProvider :=
  { present := true, accounts := .ok [sampleAccount] }

/-- LabelCreation after the mount effect ran on `configuredStorage`. -/
def loadedLabelState : LabelState :=
  { LabelCreation.initial with
    contracts := { company := some (.str sampleCompany),
                   customerSatisfaction := some (.str sampleSatisfaction) },
    loading := false }

/-- Generate a key pair, fill the form, switch to 'Use Existing', mint. -/
def generateThenUseExisting : List LabelAction :=
  [.generateKeyPair sampleWallet, .editName "Vintage Reserve 2020",
    .editDescription "Red wine", .editCapacity "750ml", .selectUseExisting,
    .mint connectedProvider (.confirmed ())]

/-- Switch to 'Use Existing', enter an address, fill the form, mint. -/
def useExistingOnly : List LabelAction :=
  [.selectUseExisting, .editBottleAddress "0x2c7536E3605D9C16a7a3D7b1898e529396a65c23",
    .editName "Vintage Reserve 2020", .editDescription "Red wine", .editCapacity "750ml",
    .mint connectedProvider (.confirmed ())]

/-- ScanLabel with `sampleAccount` connected when no config was ever saved. -/
def scanUnconfigured : ScanLabelState := { ScanLabel.initial with isConnected := true }

/-- The error with which the provider rejects a request the user declined. -/
def userRejected : JsError := ⟨"Error", "User rejected the request."⟩

/-- A provider whose user declines the connection request. -/
def decliningWallet : Ethereum :=
  { requestAccounts := .error userRejected, accounts := .ok [], listeners := [] }

/-- A provider with `sampleAccount` authorized and nothing registered. -/
def sampleEthereum : Ethereum :=
  { requestAccounts := .ok [sampleAccount], accounts := .ok [sampleAccount], listeners := [] }

/-- A window with `sampleEthereum` injected. -/
def sampleWindow : Window := { ethereum := some sampleEthereum, functionsCreated := 0 }

/-- A second key pair as `ethers.Wallet.createRandom()` returns one. -/
def secondWallet : Wallet :=
  { privateKey := "0x6370fd033278c143179d81c5526140625662b8daa446c22ee2d73db3707e620c",
    address := "0xCA35b7d915458EF540aDe6068dFe2F44E8fa733c" }

/-- A chain on which the bottle of `secondWallet` is not registered: every
`getTokenData` read reverts. -/
def unregisteredChain : Ethers :=
  { sampleChain with
    wallet := fun key => .ok { privateKey := toLowerCase key, address := secondWallet.address },
    getTokenData := fun _ _ => .error callException }

/-- Generate a key pair and fill the form. -/
def generateAndFill : List LabelAction :=
  [.generateKeyPair sampleWallet, .editName "Vintage Reserve 2020",
    .editDescription "Red wine", .editCapacity "750ml"]

/-- The page with a generated key pair and a filled form, nothing minted. -/
def filledLabelState : LabelState := loadedLabelState.run generateAndFill

/-- Generate a key pair, fill the form, mint (confirmed). -/
def generateAndMint : List LabelAction :=
  [.generateKeyPair sampleWallet, .editName "Vintage Reserve 2020",
    .editDescription "Red wine", .editCapacity "750ml",
    .mint connectedProvider (.confirmed ())]

/-- The page after a confirmed mint: the label section is shown. -/
def mintedLabelState : LabelState := loadedLabelState.run generateAndMint

/-- The page after a confirmed mint whose bottle name was then cleared. -/
def nameClearedState : LabelState :=
  loadedLabelState.run (generateAndMint ++ [.editName ""])

/-- After a confirmed mint, press 'Generate New Key Pair' again. -/
def mintThenGenerate : List LabelAction :=
  generateAndMint ++ [.generateKeyPair secondWallet]

/-- After a confirmed mint, switch to 'Use Existing', enter another bottle
address and mint it (confirmed). -/
def mintThenEditAddress : List LabelAction :=
  generateAndMint ++ [.selectUseExisting, .editBottleAddress secondWallet.address,
    .mint connectedProvider (.confirmed ())]

/-- The record of the bottle of `sampleWallet` while `otherAccount` owns it. -/
def unownedMetadata : TokenMetadata := { sampleMetadata with bottle_owner := otherAccount }

/-- The chain before the transfer: the bottle of `sampleWallet` belongs to
`otherAccount`. After the transfer the chain is `sampleChain`. -/
def beforeTransferChain : Ethers :=
  { sampleChain with
    getTokenData := fun _ bottle =>
      if bottle = sampleWallet.address then .ok unownedMetadata else .error callException }

/-- ScanLabel showing the scanned bottle of `sampleWallet` before the transfer. -/
def scannedState : ScanLabelState :=
  (ScanLabel.onScan beforeTransferChain sampleAccount sampleWallet.privateKey scanReady).1

/-- ScanLabel after the mount effect ran on `configuredStorage`. -/
def scanLoaded : ScanLabelState :=
  { ScanLabel.initial with
    contracts := { company := some (.str sampleCompany),
                   customerSatisfaction := some (.str sampleSatisfaction) } }

/-- Connect `sampleAccount`, scan the bottle of `sampleWallet`, transfer it
(confirmed). -/
def scanAndTransfer : List ScanAction :=
  [.accountChanged sampleAccount,
    .scan beforeTransferChain sampleAccount sampleWallet.privateKey,
    .transfer beforeTransferChain (.confirmed sampleChain) sampleAccount]

/-! ## Theorems: ScanLabel -/

section ScanLabelTheorems
open ScanLabel

/-- Claim C1 (defect in the code). The recorded owner `sampleAccountChecksum` and
the connected account `sampleAccount` are the same address up to letter case,
yet the transfer condition of ScanLabel holds for them, and the page rendered
after scanning the bottle of that owner shows the button 'Set Me As Bottle
Owner': only the connected account is lower-cased before the comparison. -/
theorem transfer_offered_to_owner_in_checksum_case :
    toLowerCase sampleAccountChecksum = toLowerCase sampleAccount ∧
      ScanLabel.transferOffered sampleAccountChecksum sampleAccount = true ∧
      ScanLabel.render sampleAccount
          (ScanLabel.onScan sampleChain sampleAccount sampleWallet.privateKey scanReady).1
        = .bottleDetails ⟨sampleMetadata, sampleWallet.address⟩ true false none := by
  decide

/-- Lower-casing a character twice is lower-casing it once. -/
theorem toLower_toLower (c : Char) : c.toLower.toLower = c.toLower := by
  by_cases h : 65 ≤ c.toNat ∧ c.toNat ≤ 90
  · have hc : c = Char.ofNat c.toNat := by simp
    obtain ⟨h1, h2⟩ := h
    generalize c.toNat = n at hc h1 h2
    subst hc
    interval_cases n <;> decide
  · have hl : c.toLower = c := by
      unfold Char.toLower
      simp only [ge_iff_le]
      rw [if_neg h]
    rw [hl, hl]

/-- Lower-casing a string twice is lower-casing it once. -/
theorem toLowerCase_idem (s : String) : toLowerCase (toLowerCase s) = toLowerCase s := by
  have hf : Char.toLower ∘ Char.toLower = Char.toLower := by
    funext c
    exact toLower_toLower c
  simp [toLowerCase, hf]

/-- The half of the transfer condition that holds: when the recorded owner and
the connected account differ without regard to letter case, the transfer
button is offered. -/
theorem transferOffered_of_differ (o a : String) (h : toLowerCase o ≠ toLowerCase a) :
    ScanLabel.transferOffered o a = true := by
  unfold ScanLabel.transferOffered
  simp only [bne_iff_ne, ne_eq]
  intro ho
  apply h
  rw [ho, toLowerCase_idem]

/-- The class of the key pattern is the set of hexadecimal digits. -/
theorem isHexDigit_iff (c : Char) : ScanLabel.isHexDigit c = true ↔ c ∈ hexAlphabet := by
  constructor
  · intro h
    simp only [ScanLabel.isHexDigit, Bool.or_eq_true, Bool.and_eq_true, decide_eq_true_eq] at h
    have hc : c = Char.ofNat c.toNat := by simp
    have key : ∀ n : Nat, (48 ≤ n ∧ n ≤ 57) ∨ (97 ≤ n ∧ n ≤ 102) ∨ (65 ≤ n ∧ n ≤ 70) →
        Char.ofNat n ∈ hexAlphabet := by
      intro n hn
      rcases hn with ⟨h1, h2⟩ | ⟨h1, h2⟩ | ⟨h1, h2⟩ <;> interval_cases n <;> decide
    rw [hc]
    apply key
    rcases h with (⟨h1, h2⟩ | ⟨h1, h2⟩) | ⟨h1, h2⟩
    · exact Or.inl ⟨h1, h2⟩
    · exact Or.inr (Or.inl ⟨h1, h2⟩)
    · exact Or.inr (Or.inr ⟨h1, h2⟩)
  · intro h
    simp only [hexAlphabet, List.mem_cons, List.mem_singleton] at h
    simp only [List.not_mem_nil, or_false] at h
    rcases h with h | h | h | h | h | h | h | h | h | h | h | h | h | h | h | h | h | h | h | h | h | h <;>
      subst h <;> decide

/-- What the key pattern accepts. -/
theorem matchesKeyPattern_iff (s : String) :
    matchesKeyPattern s = true ↔
      ∃ hex : List Char, hex.length = 64 ∧ (∀ c ∈ hex, c ∈ hexAlphabet) ∧
        s.data = '0' :: 'x' :: hex := by
  unfold matchesKeyPattern
  split
  · rename_i rest h
    simp only [Bool.and_eq_true, beq_iff_eq, List.all_eq_true, isHexDigit_iff, h]
    constructor
    · rintro ⟨h1, h2⟩
      exact ⟨rest, h1, h2, rfl⟩
    · rintro ⟨hex, h1, h2, h3⟩
      simp only [List.cons.injEq, true_and] at h3
      subst h3
      exact ⟨h1, h2⟩
  · rename_i h
    constructor
    · intro hf
      cases hf
    · rintro ⟨hex, _, _, h3⟩
      exact absurd h3 (h hex)

/-- What `startsWith('0x')` accepts. -/
theorem startsWith0x_iff (s : String) :
    startsWith0x s = true ↔ ∃ rest, s.data = '0' :: 'x' :: rest := by
  unfold startsWith0x
  split
  · rename_i rest h
    simp [h]
  · rename_i h
    constructor
    · intro hf
      cases hf
    · rintro ⟨rest, h3⟩
      exact absurd h3 (h rest)

/-- The format check of `verifyBottle` accepts exactly the texts of the spec's shape. -/
theorem formatKey_matches_iff (s : String) :
    matchesKeyPattern (formatKey s) = true ↔ IsKeyText s := by
  rw [matchesKeyPattern_iff]
  unfold formatKey IsKeyText
  by_cases hp : startsWith0x s = true
  · obtain ⟨rest, h⟩ := (startsWith0x_iff s).1 hp
    simp only [hp, if_true]
    constructor
    · rintro ⟨hex, h1, h2, h3⟩
      exact ⟨hex, h1, h2, Or.inr h3⟩
    · rintro ⟨hex, h1, h2, h3 | h3⟩
      · exfalso
        rw [h] at h3
        have hx : 'x' ∈ hexAlphabet := h2 'x' (by rw [← h3]; simp)
        revert hx
        decide
      · exact ⟨hex, h1, h2, h3⟩
  · simp only [hp, if_false, String.data_append]
    constructor
    · rintro ⟨hex, h1, h2, h3⟩
      refine ⟨hex, h1, h2, Or.inl ?_⟩
      simpa using h3
    · rintro ⟨hex, h1, h2, h3 | h3⟩
      · exact ⟨hex, h1, h2, by simp [h3]⟩
      · exact absurd ((startsWith0x_iff s).2 ⟨hex, h3⟩) hp

/-- Claim C2. For a non-empty decoded text `s` and a connected wallet,
`verifyBottle` gets past the key-format check (its first call is the
construction of the bottle wallet from the formatted key) if and only if `s` is
64 hexadecimal characters, optionally preceded by `0x`; for every other `s` the
run ends with the error 'Invalid private key format', makes no call at all (no
wallet is constructed, no contract is read), leaves `tokenData` null and leaves
the stored bottle wallet as it was. -/
theorem verifyBottle_key_format (E : Ethers) (currentAccount s : String) (st : ScanLabelState)
    (hs : s ≠ "") (ha : currentAccount ≠ "") :
    ((verifyBottle E currentAccount s st).2.head? = some (.newWallet (formatKey s))
        ↔ IsKeyText s) ∧
      (¬ IsKeyText s →
        (verifyBottle E currentAccount s st).1.error = "Invalid private key format" ∧
        (verifyBottle E currentAccount s st).2 = [] ∧
        (verifyBottle E currentAccount s st).1.tokenData = none ∧
        (verifyBottle E currentAccount s st).1.bottleWallet = st.bottleWallet) := by
  rw [← formatKey_matches_iff]
  by_cases hm : matchesKeyPattern (formatKey s) = true
  · refine ⟨⟨fun _ => hm, fun _ => ?_⟩, fun h => absurd hm h⟩
    simp only [verifyBottle, verifyBottleTry, hs, ha, hm, if_false, Bool.not_true,
      Bool.false_eq_true]
    cases E.wallet (formatKey s) with
    | error e => rfl
    | ok wallet =>
      simp only []
      split
      · rfl
      · cases E.web3Provider with
        | error e => rfl
        | ok u =>
          simp only []
          cases E.getTokenData (contractAddress st.contracts.company) wallet.address <;> rfl
  · have hm' : matchesKeyPattern (formatKey s) = false := by simpa using hm
    simp [verifyBottle, verifyBottleTry, hs, ha, hm', mkError]

/-- Witness for C2: the scanned text `0xzz`, with `sampleAccount` connected. -/
theorem verifyBottle_key_format_witness :
    ("0xzz" ≠ "" ∧ sampleAccount ≠ "") ∧
      (((verifyBottle sampleChain sampleAccount "0xzz" scanReady).2.head?
          = some (.newWallet (formatKey "0xzz")) ↔ IsKeyText "0xzz") ∧
        (¬ IsKeyText "0xzz" →
          (verifyBottle sampleChain sampleAccount "0xzz" scanReady).1.error
            = "Invalid private key format" ∧
          (verifyBottle sampleChain sampleAccount "0xzz" scanReady).2 = [] ∧
          (verifyBottle sampleChain sampleAccount "0xzz" scanReady).1.tokenData = none ∧
          (verifyBottle sampleChain sampleAccount "0xzz" scanReady).1.bottleWallet
            = scanReady.bottleWallet)) :=
  ⟨⟨by decide, by decide⟩,
    verifyBottle_key_format sampleChain sampleAccount "0xzz" scanReady (by decide) (by decide)⟩

/-- The calls `verifyBottle` can make: none, the wallet construction, or the
wallet construction followed by one `getTokenData` read. -/
theorem verifyBottle_events (E : Ethers) (currentAccount privateKey : String)
    (s : ScanLabelState) :
    (verifyBottle E currentAccount privateKey s).2 = [] ∨
      (verifyBottle E currentAccount privateKey s).2 = [.newWallet (formatKey privateKey)] ∨
      ∃ wallet, E.wallet (formatKey privateKey) = .ok wallet ∧
        (verifyBottle E currentAccount privateKey s).2 =
        [.newWallet (formatKey privateKey),
          .read (contractAddress s.contracts.company) "getTokenData" [.str wallet.address]] := by
  unfold verifyBottle verifyBottleTry
  simp only []
  repeat' split
  all_goals simp_all

/-- The function `verifyBottle` submits no transaction. -/
theorem verifyBottle_sends_nothing (E : Ethers) (currentAccount privateKey : String)
    (s : ScanLabelState) (signer : Signer) (contract : Json) (method : String)
    (args : List Json) :
    Event.send signer contract method args ∉ (verifyBottle E currentAccount privateKey s).2 := by
  rcases verifyBottle_events E currentAccount privateKey s with h | h | ⟨w, _, h⟩ <;>
    simp [h]

/-- Claim C3. Every transaction a run of `setBottleOwner` submits is the call
`setAddressOwner` on the configured Company contract, signed by a signer built
from the private key of the stored bottle wallet (not by the connected
wallet's signer), with the connected account as its single argument; when
the bottle wallet, the connected account or the company address is missing,
the run makes no call and ends with the error 'Ownership transfer failed:
Missing required data for ownership transfer'; and the stored bottle wallet
of a state that shows bottle details after a scan is the wallet constructed
from the scanned text. -/
theorem setBottleOwner_signed_by_bottle_key (E : Ethers) (tx : TxOutcome Ethers) (currentAccount : String)
    (s : ScanLabelState) :
    (∀ signer contract method args,
        Event.send signer contract method args ∈ (setBottleOwner E tx currentAccount s).2 →
        ∃ bottleWallet, s.bottleWallet = some bottleWallet ∧
          signer = .bottleKey bottleWallet.privateKey ∧ signer ≠ .connectedWallet ∧
          contract = contractAddress s.contracts.company ∧
          method = "setAddressOwner" ∧ args = [.str currentAccount]) ∧
      (s.bottleWallet = none ∨ currentAccount = "" ∨ truthy s.contracts.company = false →
        (setBottleOwner E tx currentAccount s).2 = [] ∧
        (setBottleOwner E tx currentAccount s).1.error
          = "Ownership transfer failed: Missing required data for ownership transfer") ∧
      (∀ (data : String) (s0 : ScanLabelState),
        (onScan E currentAccount data s0).1.tokenData ≠ none →
        ∃ wallet, E.wallet (formatKey data) = .ok wallet ∧
          (onScan E currentAccount data s0).1.bottleWallet = some wallet) := by
  refine ⟨?_, ?_, ?_⟩
  · intro signer contract method args
    unfold setBottleOwner setBottleOwnerTry
    simp only []
    repeat' split
    all_goals simp_all [verifyBottle_sends_nothing]
  · intro h
    unfold setBottleOwner setBottleOwnerTry
    simp only []
    repeat' split
    all_goals simp_all [mkError]
    all_goals
      rename_i err heq
      rw [← heq]
      rfl
  · intro data s0
    unfold onScan verifyBottle verifyBottleTry
    simp only []
    repeat' split
    all_goals simp_all

/-- Witness for C3: after scanning the bottle of `sampleWallet`, a confirmed
transfer does submit a transaction, and it is signed by the bottle key. -/
theorem setBottleOwner_signed_by_bottle_key_witness :
    ∃ bottleWallet,
      (onScan sampleChain sampleAccount sampleWallet.privateKey scanReady).1.bottleWallet
          = some bottleWallet ∧
        Signer.bottleKey sampleWallet.privateKey = .bottleKey bottleWallet.privateKey ∧
        Signer.bottleKey sampleWallet.privateKey ≠ .connectedWallet ∧
        Json.str sampleCompany = contractAddress
          (onScan sampleChain sampleAccount sampleWallet.privateKey scanReady).1.contracts.company ∧
        "setAddressOwner" = "setAddressOwner" ∧ [Json.str sampleAccount] = [.str sampleAccount] :=
  (setBottleOwner_signed_by_bottle_key sampleChain (.confirmed sampleChain) sampleAccount
    (onScan sampleChain sampleAccount sampleWallet.privateKey scanReady).1).1
    (.bottleKey sampleWallet.privateKey) (.str sampleCompany) "setAddressOwner"
    [.str sampleAccount] (by decide)

end ScanLabelTheorems

/-! ## Theorems: Config, App and contractStorage -/

/-- Applying `|| ''` twice is applying it once. -/
theorem jsOr_idem (v : JsVal) : jsOr (some (jsOr v (.str ""))) (.str "") = jsOr v (.str "") := by
  unfold jsOr
  cases v with
  | none => simp [Json.truthy]
  | some j =>
    by_cases h : j.truthy = true
    · simp [h]
    · have h' : j.truthy = false := by simpa using h
      have h0 : (Json.str "").truthy = false := by decide
      simp [h', h0]

/-- On a truthy value `|| ''` changes nothing. -/
theorem jsOr_truthy (j : Json) (h : j.truthy = true) : jsOr (some j) (.str "") = j := by
  simp [jsOr, h]

/-- What a load that does not throw returns, in terms of the stored record. -/
theorem loadContracts_ok (ls : LocalStorage) (a : AppState)
    (h : CompanyApp.loadContracts ls AppState.initial = .ok a) :
    ls.available = true ∧
    a.companyContractAddress = jsOr (storedField ls "company") (.str "") ∧
      a.customerSatisfactionContractAddress
        = jsOr (storedField ls "customerSatisfaction") (.str "") := by
  obtain ⟨av, fl, item⟩ := ls
  cases av with
  | false => simp [CompanyApp.loadContracts, LocalStorage.getItem, bind, Except.bind] at h
  | true =>
    refine ⟨rfl, ?_⟩
    cases item with
    | none =>
      simp [CompanyApp.loadContracts, LocalStorage.getItem, bind, Except.bind, pure, Except.pure] at h
      subst h
      simp [storedField, jsOr, AppState.initial]
    | some text =>
      cases text with
      | malformed raw =>
        by_cases hr : raw = ""
        · simp [CompanyApp.loadContracts, LocalStorage.getItem, bind, Except.bind, pure,
            Except.pure, StoredText.truthy, hr] at h
          subst h
          simp [storedField, jsOr, AppState.initial]
        · simp [CompanyApp.loadContracts, LocalStorage.getItem, bind, Except.bind, pure,
            Except.pure, StoredText.truthy, hr, jsonParse] at h
      | json v =>
        cases v <;>
          simp [CompanyApp.loadContracts, LocalStorage.getItem, bind, Except.bind, pure,
            Except.pure, StoredText.truthy, jsonParse, destructureAddresses] at h <;>
          subst h <;> simp [storedField]

/-- The fields of a loaded state are the stored fields under `|| ''`. -/
theorem loadedFrom_normal (s : ConfigSystem) (h : LoadedFrom s) :
    s.storage.available = true ∧
      s.app.companyContractAddress = jsOr (storedField s.storage "company") (.str "") ∧
      s.app.customerSatisfactionContractAddress
        = jsOr (storedField s.storage "customerSatisfaction") (.str "") := by
  have := loadContracts_ok s.storage _ h
  simpa using this

/-- After a save that succeeds, the saved state is the loaded state. -/
theorem loadedFrom_after_save (s : ConfigSystem) (c cs : Json)
    (hav : s.storage.available = true) (hfull : s.storage.full = false)
    (hc : jsOr (some c) (.str "") = c) (hcs : jsOr (some cs) (.str "") = cs) (cfg : ConfigState) :
    LoadedFrom
      { app := { s.app with companyContractAddress := c,
                            customerSatisfactionContractAddress := cs },
        config := cfg,
        storage := Config.storageAfter s.storage
          (Config.saveToLocalStorage (some c) (some cs) s.storage) } := by
  simp [LoadedFrom, Config.storageAfter, Config.saveToLocalStorage, LocalStorage.setItem, hav,
    hfull, jsonStringify, addressRecord, CompanyApp.loadContracts, LocalStorage.getItem, bind,
    Except.bind, pure, Except.pure, StoredText.truthy, jsonParse, destructureAddresses,
    Json.prop, JsonProps.get, hc, hcs, AppState.initial]


/-- On a string `|| ''` changes nothing. -/
theorem jsOr_str (v : String) : jsOr (some (.str v)) (.str "") = .str v := by
  by_cases h : v = ""
  · subst h
    rfl
  · simp [jsOr, Json.truthy, h]

/-- The saved addresses of a loaded state are the fields of `App`. -/
theorem savedAddresses_of_loadedFrom (s : ConfigSystem) (h : LoadedFrom s) :
    savedAddresses s.storage
      = .ok (s.app.companyContractAddress, s.app.customerSatisfactionContractAddress) := by
  unfold savedAddresses
  rw [h]
  rfl

/-- When the storage is full, a handler leaves it as it was. -/
theorem storageAfter_full (ls : LocalStorage) (text : StoredText) (h : ls.full = true) :
    Config.storageAfter ls (ls.setItem text) = ls := by
  unfold Config.storageAfter LocalStorage.setItem
  cases hav : ls.available <;> simp [h]

/-- What `handleCompanySubmit` establishes from the invariant. -/
theorem handleCompanySubmit_frame (t : ConfigSystem) (h : ConfigInv t) :
    ConfigInv (Config.handleCompanySubmit t) ∧
      (savedAddresses (Config.handleCompanySubmit t).storage).map Prod.snd
        = (savedAddresses t.storage).map Prod.snd ∧
      ∀ v, storedField t.storage "customerSatisfaction" = some (.str v) →
        storedField (Config.handleCompanySubmit t).storage "customerSatisfaction"
          = some (.str v) := by
  unfold Config.handleCompanySubmit
  by_cases hn : t.config.newCompanyAddress.truthy = true
  · simp only [hn, if_true]
    rcases h with hfull | hl
    · have hst := storageAfter_full t.storage
        (jsonStringify (some (addressRecord (some t.config.newCompanyAddress)
          (some t.app.customerSatisfactionContractAddress)))) hfull
      simp only [Config.saveToLocalStorage, hst]
      exact ⟨Or.inl hfull, trivial, fun v hv => hv⟩
    · by_cases hfull : t.storage.full = true
      · have hst := storageAfter_full t.storage
          (jsonStringify (some (addressRecord (some t.config.newCompanyAddress)
            (some t.app.customerSatisfactionContractAddress)))) hfull
        simp only [Config.saveToLocalStorage, hst]
        exact ⟨Or.inl hfull, trivial, fun v hv => hv⟩
      · have hfull' : t.storage.full = false := by simpa using hfull
        obtain ⟨hav, _, hcs⟩ := loadedFrom_normal t hl
        have hcs' : jsOr (some t.app.customerSatisfactionContractAddress) (.str "")
            = t.app.customerSatisfactionContractAddress := by
          rw [hcs]
          exact jsOr_idem _
        have hl' := loadedFrom_after_save t t.config.newCompanyAddress
          t.app.customerSatisfactionContractAddress hav hfull' (jsOr_truthy _ hn) hcs' t.config
        refine ⟨Or.inr hl', ?_, ?_⟩
        · rw [savedAddresses_of_loadedFrom _ hl', savedAddresses_of_loadedFrom _ hl]
          rfl
        · intro v hv
          rw [hv, jsOr_str] at hcs
          simp [Config.storageAfter, Config.saveToLocalStorage, LocalStorage.setItem, hav,
            hfull', jsonStringify, addressRecord, storedField, Json.prop, JsonProps.get, hcs]
  · simp only [hn, if_false, Bool.false_eq_true]
    exact ⟨h, trivial, fun v hv => hv⟩

/-- What `handleCustomerSubmit` establishes from the invariant. -/
theorem handleCustomerSubmit_frame (t : ConfigSystem) (h : ConfigInv t) :
    ConfigInv (Config.handleCustomerSubmit t) ∧
      (savedAddresses (Config.handleCustomerSubmit t).storage).map Prod.fst
        = (savedAddresses t.storage).map Prod.fst ∧
      ∀ v, storedField t.storage "company" = some (.str v) →
        storedField (Config.handleCustomerSubmit t).storage "company" = some (.str v) := by
  unfold Config.handleCustomerSubmit
  by_cases hn : t.config.newCustomerAddress.truthy = true
  · simp only [hn, if_true]
    rcases h with hfull | hl
    · have hst := storageAfter_full t.storage
        (jsonStringify (some (addressRecord (some t.app.companyContractAddress)
          (some t.config.newCustomerAddress)))) hfull
      simp only [Config.saveToLocalStorage, hst]
      exact ⟨Or.inl hfull, trivial, fun v hv => hv⟩
    · by_cases hfull : t.storage.full = true
      · have hst := storageAfter_full t.storage
          (jsonStringify (some (addressRecord (some t.app.companyContractAddress)
            (some t.config.newCustomerAddress)))) hfull
        simp only [Config.saveToLocalStorage, hst]
        exact ⟨Or.inl hfull, trivial, fun v hv => hv⟩
      · have hfull' : t.storage.full = false := by simpa using hfull
        obtain ⟨hav, hc, _⟩ := loadedFrom_normal t hl
        have hc' : jsOr (some t.app.companyContractAddress) (.str "")
            = t.app.companyContractAddress := by
          rw [hc]
          exact jsOr_idem _
        have hl' := loadedFrom_after_save t t.app.companyContractAddress
          t.config.newCustomerAddress hav hfull' hc' (jsOr_truthy _ hn) t.config
        refine ⟨Or.inr hl', ?_, ?_⟩
        · rw [savedAddresses_of_loadedFrom _ hl', savedAddresses_of_loadedFrom _ hl]
          rfl
        · intro v hv
          rw [hv, jsOr_str] at hc
          simp [Config.storageAfter, Config.saveToLocalStorage, LocalStorage.setItem, hav,
            hfull', jsonStringify, addressRecord, storedField, Json.prop, JsonProps.get, hc]
  · simp only [hn, if_false, Bool.false_eq_true]
    exact ⟨h, trivial, fun v hv => hv⟩

/-- Every action on the Config page keeps the invariant. -/
theorem configInv_step (t : ConfigSystem) (h : ConfigInv t) (op : ConfigOp) :
    ConfigInv (t.step op) := by
  cases op with
  | typeCompany text => exact h
  | typeCustomer text => exact h
  | submitCompany => exact (handleCompanySubmit_frame t h).1
  | submitCustomer => exact (handleCustomerSubmit_frame t h).1

/-- Every sequence of actions on the Config page keeps the invariant. -/
theorem configInv_run (ops : List ConfigOp) (t : ConfigSystem) (h : ConfigInv t) :
    ConfigInv (t.run ops) := by
  induction ops generalizing t with
  | nil => exact h
  | cons op ops ih => exact ih (t.step op) (configInv_step t h op)

/-- Claim C4. From a state in which the state of `App` is the one loaded from
the persisted record, and after any finite sequence of edits and submits on
the Config page: saving the company address with `handleCompanySubmit` leaves
the persisted `customerSatisfaction` field as it was, and saving the
satisfaction address with `handleCustomerSubmit` leaves the persisted
`company` field as it was. Each is stated twice: for the field as a load
returns it, and for the stored property itself when it is a string. -/
theorem config_submit_keeps_sibling (s : ConfigSystem) (hload : LoadedFrom s) (ops : List ConfigOp) :
    ((savedAddresses (Config.handleCompanySubmit (s.run ops)).storage).map Prod.snd
        = (savedAddresses (s.run ops).storage).map Prod.snd ∧
      ∀ v, storedField (s.run ops).storage "customerSatisfaction" = some (.str v) →
        storedField (Config.handleCompanySubmit (s.run ops)).storage "customerSatisfaction"
          = some (.str v)) ∧
    ((savedAddresses (Config.handleCustomerSubmit (s.run ops)).storage).map Prod.fst
        = (savedAddresses (s.run ops).storage).map Prod.fst ∧
      ∀ v, storedField (s.run ops).storage "company" = some (.str v) →
        storedField (Config.handleCustomerSubmit (s.run ops)).storage "company"
          = some (.str v)) :=
  have hinv := configInv_run ops s (Or.inr hload)
  ⟨(handleCompanySubmit_frame _ hinv).2, (handleCustomerSubmit_frame _ hinv).2⟩

/-- Witness for C4: both addresses are saved; the user then saves a new
satisfaction address and types a new company address. Saving it leaves the
stored satisfaction address the one saved just before. -/
theorem config_submit_keeps_sibling_witness :
    LoadedFrom configuredSystem ∧
      storedField (Config.handleCompanySubmit (configuredSystem.run
          [.typeCustomer "0x5FbDB2315678afecb367f032d93F642f64180aa3", .submitCustomer,
            .typeCompany "0xe7f1725E7734CE288F8367e1Bb143E90bb3F0512"])).storage
        "customerSatisfaction" = some (.str "0x5FbDB2315678afecb367f032d93F642f64180aa3") :=
  ⟨rfl,
    (config_submit_keeps_sibling configuredSystem rfl
      [.typeCustomer "0x5FbDB2315678afecb367f032d93F642f64180aa3", .submitCustomer,
        .typeCompany "0xe7f1725E7734CE288F8367e1Bb143E90bb3F0512"]).1.2
      "0x5FbDB2315678afecb367f032d93F642f64180aa3" (by decide)⟩

/-- Claim C5. For every pair of address strings `(c, s)`, writing them with
`saveToLocalStorage(c, s)` to a storage that accepts the write and then
running the load of `App` (either dapp) yields `companyContractAddress = c`
and `customerSatisfactionContractAddress = s`. -/
theorem save_then_load_addresses (c s : String) (ls : LocalStorage) (app : AppState)
    (hav : ls.available = true) (hfull : ls.full = false) :
    ∃ ls', Config.saveToLocalStorage (some (.str c)) (some (.str s)) ls = .ok ls' ∧
      CompanyApp.loadContracts ls' app
        = .ok { app with companyContractAddress := .str c,
                         customerSatisfactionContractAddress := .str s } ∧
      CustomerApp.loadEffect ls' app
        = .ok { app with companyContractAddress := .str c,
                         customerSatisfactionContractAddress := .str s } := by
  refine ⟨{ ls with
    contractAddresses :=
      some (jsonStringify (some (addressRecord (some (.str c)) (some (.str s))))) }, ?_, ?_, ?_⟩
  · simp [Config.saveToLocalStorage, LocalStorage.setItem, hav, hfull]
  · simp [CompanyApp.loadContracts, LocalStorage.getItem, hav, jsonStringify, addressRecord,
      bind, Except.bind, pure, Except.pure, StoredText.truthy, jsonParse, destructureAddresses,
      Json.prop, JsonProps.get, jsOr_str]
  · simp [CustomerApp.loadEffect, LocalStorage.getItem, hav, jsonStringify, addressRecord,
      bind, Except.bind, pure, Except.pure, StoredText.truthy, jsonParse, destructureAddresses,
      Json.prop, JsonProps.get, jsOr_str]

/-- Witness for C5: a company address saved with an empty satisfaction address. -/
theorem save_then_load_addresses_witness :
    (emptyStorage.available = true ∧ emptyStorage.full = false) ∧
      ∃ ls', Config.saveToLocalStorage (some (.str sampleCompany)) (some (.str "")) emptyStorage
          = .ok ls' ∧
        CompanyApp.loadContracts ls' AppState.initial
          = .ok { AppState.initial with
                  companyContractAddress := .str sampleCompany,
                  customerSatisfactionContractAddress := .str "" } ∧
        CustomerApp.loadEffect ls' AppState.initial
          = .ok { AppState.initial with
                  companyContractAddress := .str sampleCompany,
                  customerSatisfactionContractAddress := .str "" } :=
  ⟨⟨rfl, rfl⟩, save_then_load_addresses sampleCompany "" emptyStorage AppState.initial rfl rfl⟩

/-- Claim C6 (defect in the code). When the persisted entry is a text that is
not JSON, the load of `App` (both dapps), of LabelCreation and of ScanLabel
throws a SyntaxError out of the mount effect; when it is the JSON text `null`,
each throws a TypeError. The sibling `contractStorage.loadContracts` catches
the error and returns the empty record on the same storage. -/
theorem load_effects_throw_on_corrupt_entry :
    CompanyApp.loadContracts corruptStorage AppState.initial
        = .error ⟨"SyntaxError", "Unexpected token in JSON"⟩ ∧
      CustomerApp.loadEffect corruptStorage AppState.initial
        = .error ⟨"SyntaxError", "Unexpected token in JSON"⟩ ∧
      LabelCreation.loadEffect corruptStorage LabelCreation.initial
        = .error ⟨"SyntaxError", "Unexpected token in JSON"⟩ ∧
      ScanLabel.loadEffect corruptStorage ScanLabel.initial
        = .error ⟨"SyntaxError", "Unexpected token in JSON"⟩ ∧
      CompanyApp.loadContracts nullStorage AppState.initial
        = .error ⟨"TypeError", "Cannot destructure property of null"⟩ ∧
      CustomerApp.loadEffect nullStorage AppState.initial
        = .error ⟨"TypeError", "Cannot destructure property of null"⟩ ∧
      LabelCreation.loadEffect nullStorage LabelCreation.initial
        = .error ⟨"TypeError", "Cannot destructure property of null"⟩ ∧
      ScanLabel.loadEffect nullStorage ScanLabel.initial
        = .error ⟨"TypeError", "Cannot destructure property of null"⟩ ∧
      contractStorage.loadContracts corruptStorage = .ok (.obj .nil) :=
  ⟨rfl, rfl, rfl, rfl, rfl, rfl, rfl, rfl, rfl⟩

/-- Claim C7. The function `contractStorage.loadContracts` never throws; for an
absent entry, for every stored text that is not JSON and whenever reading the
storage fails it returns the empty record; and after a `saveContracts(r)` that
succeeded, for every record `r`, it returns a record whose `company` and
`customerSatisfaction` properties are those of `r` (an absent or undefined
property stays absent). -/
theorem contractStorage_load_never_throws :
    (∀ ls, ∃ v, contractStorage.loadContracts ls = .ok v) ∧
    (∀ ls, ls.contractAddresses = none → contractStorage.loadContracts ls = .ok (.obj .nil)) ∧
    (∀ ls raw, ls.contractAddresses = some (.malformed raw) →
      contractStorage.loadContracts ls = .ok (.obj .nil)) ∧
    (∀ ls, ls.available = false → contractStorage.loadContracts ls = .ok (.obj .nil)) ∧
    (∀ ls ls' r, contractStorage.saveContracts (some (.obj r)) ls = .ok ls' →
      ∃ v, contractStorage.loadContracts ls' = .ok v ∧
        v.prop "company" = r.get "company" ∧
        v.prop "customerSatisfaction" = r.get "customerSatisfaction") ∧
    (∀ ls ls' company customerSatisfaction,
      contractStorage.saveContracts (some (addressRecord company customerSatisfaction)) ls
        = .ok ls' →
      ∃ v, contractStorage.loadContracts ls' = .ok v ∧
        v.prop "company" = company ∧ v.prop "customerSatisfaction" = customerSatisfaction) := by
  have save_ok : ∀ (ls ls' : LocalStorage) (v : Json),
      contractStorage.saveContracts (some v) ls = .ok ls' →
      contractStorage.loadContracts ls' = .ok v := by
    intro ls ls' v h
    obtain ⟨av, fl, item⟩ := ls
    cases av <;> cases fl <;>
      simp [contractStorage.saveContracts, LocalStorage.setItem, jsonStringify] at h
    subst h
    simp [contractStorage.loadContracts, contractStorage.loadContractsTry, LocalStorage.getItem,
      bind, Except.bind, StoredText.truthy, jsonParse]
  refine ⟨?_, ?_, ?_, ?_, ?_, ?_⟩
  · intro ls
    unfold contractStorage.loadContracts
    cases contractStorage.loadContractsTry ls with
    | ok v => exact ⟨v, rfl⟩
    | error e => exact ⟨_, rfl⟩
  · intro ls h
    obtain ⟨av, fl, item⟩ := ls
    cases h
    cases av <;>
      simp [contractStorage.loadContracts, contractStorage.loadContractsTry,
        LocalStorage.getItem, bind, Except.bind, pure, Except.pure]
  · intro ls raw h
    obtain ⟨av, fl, item⟩ := ls
    cases h
    by_cases hr : raw = "" <;> cases av <;>
      simp [contractStorage.loadContracts, contractStorage.loadContractsTry,
        LocalStorage.getItem, bind, Except.bind, pure, Except.pure, StoredText.truthy, hr,
        jsonParse]
  · intro ls h
    simp [contractStorage.loadContracts, contractStorage.loadContractsTry,
      LocalStorage.getItem, bind, Except.bind, h]
  · intro ls ls' r h
    exact ⟨_, save_ok ls ls' _ h, rfl, rfl⟩
  · intro ls ls' company customerSatisfaction h
    refine ⟨_, save_ok ls ls' _ h, ?_, ?_⟩
    · cases company <;> cases customerSatisfaction <;>
        simp [addressRecord, Json.prop, JsonProps.get]
    · cases company <;> cases customerSatisfaction <;>
        simp [addressRecord, Json.prop, JsonProps.get]

/-- Witness for C7: a record with only the company address, saved to an empty
storage and loaded back. -/
theorem contractStorage_load_never_throws_witness :
    ∃ v, contractStorage.loadContracts
          { emptyStorage with
            contractAddresses := some (.json (addressRecord (some (.str sampleCompany)) none)) }
        = .ok v ∧
      v.prop "company" = some (.str sampleCompany) ∧ v.prop "customerSatisfaction" = none :=
  contractStorage_load_never_throws.2.2.2.2.2 emptyStorage _ (some (.str sampleCompany)) none rfl

/-! ## Theorems: CustomerBottles -/

section CustomerBottlesTheorems
open CustomerBottles

/-- One iteration of the loop appends the bottle and the reads of its token. -/
theorem processToken_eq (E : Ethers) (P : BottlesProps) (tokenId : Nat)
    (acc : List Bottle × List Event) :
    processToken E P tokenId acc
      = (acc.1 ++ (tokenBottle E P tokenId).toList, acc.2 ++ tokenReads E P tokenId) := by
  unfold processToken tokenBottle tokenReads
  simp only []
  repeat' split
  all_goals simp_all

/-- With enough fuel the loop visits exactly the token ids from `tokenId` to
`totalSupply`, in order. -/
theorem forTokens_eq (E : Ethers) (P : BottlesProps) (N : Nat) :
    ∀ (fuel tokenId : Nat) (acc : List Bottle × List Event), N + 1 - tokenId ≤ fuel →
      forTokens E P N fuel tokenId acc
        = (acc.1 ++ (List.range' tokenId (N + 1 - tokenId)).filterMap (tokenBottle E P),
            acc.2 ++ (List.range' tokenId (N + 1 - tokenId)).flatMap (tokenReads E P)) := by
  intro fuel
  induction fuel with
  | zero =>
    intro tokenId acc h
    have h0 : N + 1 - tokenId = 0 := by omega
    simp [forTokens, h0]
  | succ fuel ih =>
    intro tokenId acc h
    unfold forTokens
    by_cases hle : tokenId ≤ N
    · have hlen : N + 1 - tokenId = (N + 1 - (tokenId + 1)) + 1 := by omega
      rw [if_pos hle, ih (tokenId + 1) _ (by omega), processToken_eq, hlen, List.range'_succ]
      cases hb : tokenBottle E P tokenId <;>
        simp [List.filterMap_cons, hb, List.flatMap_cons, List.append_assoc]
    · have h0 : N + 1 - tokenId = 0 := by omega
      simp [hle, h0]

/-- The result of `fetchBottles` when the props are present and the supply is read. -/
theorem fetchBottles_eq (E : Ethers) (P : BottlesProps) (s : BottlesState) (N : Nat)
    (hacc : P.currentAccount ≠ "") (hco : P.companyContractAddress.truthy = true)
    (hcs : P.customerSatisfactionContractAddress.truthy = true)
    (hprov : E.web3Provider = .ok ()) (hN : E.bottleNFTId P.companyContractAddress = .ok N) :
    fetchBottles E P s
      = ({ s with loading := false, error := "",
                  bottles := (List.range' 1 N).filterMap (tokenBottle E P) },
          .read P.companyContractAddress "bottleNFTId" []
            :: (List.range' 1 N).flatMap (tokenReads E P)) := by
  simp [fetchBottles, fetchBottlesTry, hacc, hco, hcs, hprov, hN, forTokens_eq]


/-- A message with a non-empty first part is not empty. -/
theorem append_ne_empty (a b : String) (h : a ≠ "") : a ++ b ≠ "" := by
  intro hab
  apply h
  have hd := congrArg String.data hab
  simp only [String.data_append] at hd
  have ha : a.data = [] := (List.append_eq_nil.1 hd).1
  cases a
  simp_all

/-- When a bottle is pushed for a token id. -/
theorem tokenBottle_some (E : Ethers) (P : BottlesProps) (t : Nat) (b : Bottle) :
    tokenBottle E P t = some b ↔
      ∃ m c, E.tokenMetadata P.companyContractAddress t = .ok m ∧
        toLowerCase m.bottle_owner = toLowerCase P.currentAccount ∧
        E.mintedSatisfToken P.customerSatisfactionContractAddress m.address_bottle = .ok c ∧
        b = mkBottle t m c := by
  unfold tokenBottle
  constructor
  · intro h
    revert h
    repeat' split
    all_goals simp_all
  · rintro ⟨m, c, hm, ho, hc, rfl⟩
    simp [hm, ho, hc]

/-- Claim C8. For every bottle card listed by CustomerBottles after
`fetchBottles`, the read `mintedSatisfToken(bottleAddress)` of that bottle
answered some value `v`, the button 'Mint Certificate' is shown if and only if
`v = 0`, and it is not shown when `v > 0`. -/
theorem mint_certificate_offered_iff_none_minted (E : Ethers) (P : BottlesProps) (s : BottlesState) (cards : List Card)
    (h : render (fetchBottles E P s).1 = .list cards) :
    ∀ card ∈ cards, ∃ v,
      E.mintedSatisfToken P.customerSatisfactionContractAddress card.bottle.bottleAddress
        = .ok v ∧
      (card.mintButton = true ↔ v = 0) ∧ (0 < v → card.mintButton = false) := by
  by_cases hg : P.currentAccount = "" ∨ P.companyContractAddress.truthy = false
      ∨ P.customerSatisfactionContractAddress.truthy = false
  · exfalso
    have hne : missingProps P ≠ "" := by
      unfold missingProps
      simp only [String.append_assoc]
      exact append_ne_empty _ _ (by decide)
    have hf : fetchBottles E P s = ({ s with error := missingProps P, loading := false }, []) := by
      unfold fetchBottles
      rcases hg with hg | hg | hg <;> simp [hg]
    rw [hf] at h
    simp [render, hne] at h
  · simp only [not_or, Bool.not_eq_false] at hg
    obtain ⟨hacc, hco, hcs⟩ := hg
    cases hprov : E.web3Provider with
    | error e =>
      exfalso
      have hne : "Fatal error: " ++ e.message ≠ "" := append_ne_empty _ _ (by decide)
      simp [fetchBottles, fetchBottlesTry, hacc, hco, hcs, hprov, render, hne] at h
    | ok u =>
      cases hN : E.bottleNFTId P.companyContractAddress with
      | error e =>
        exfalso
        have hne : "Fatal error: " ++ e.message ≠ "" := append_ne_empty _ _ (by decide)
        simp [fetchBottles, fetchBottlesTry, hacc, hco, hcs, hprov, hN, render, hne] at h
      | ok N =>
        rw [fetchBottles_eq E P s N hacc hco hcs hprov hN] at h
        simp only [render, Bool.false_eq_true, if_false, bne_self_eq_false,
          View.list.injEq] at h
        subst h
        intro card hcard
        simp only [List.mem_map, List.mem_filterMap] at hcard
        obtain ⟨b, ⟨t, _, hb⟩, rfl⟩ := hcard
        obtain ⟨m, c, _, _, hc, rfl⟩ := (tokenBottle_some E P t b).1 hb
        refine ⟨c, hc, ?_, ?_⟩
        · simp [mintCertificateOffered, mkBottle]
        · intro hpos
          simp [mintCertificateOffered, mkBottle, hpos]

/-- The only `tokenMetadata` read made for a token id is of that id. -/
theorem mem_tokenReads (E : Ethers) (P : BottlesProps) (t : Nat) (contract : Json) (n : Int)
    (h : Event.read contract "tokenMetadata" [.num n] ∈ tokenReads E P t) : n = t := by
  unfold tokenReads at h
  revert h
  repeat' split
  all_goals simp_all

/-- Witness for C8: on `sampleChain` the account owns tokens 1 and 2; token 1
has no certificate and gets the button, token 2 has certificate 7 and does not. -/
theorem mint_certificate_offered_iff_none_minted_witness :
    render (fetchBottles sampleChain sampleProps CustomerBottles.initial).1
        = .list [⟨mkBottle 1 sampleMetadata 0, true, false⟩,
            ⟨mkBottle 2 certifiedMetadata 7, false, false⟩] ∧
      ∀ card ∈ [(⟨mkBottle 1 sampleMetadata 0, true, false⟩ : Card),
            ⟨mkBottle 2 certifiedMetadata 7, false, false⟩],
        ∃ v, sampleChain.mintedSatisfToken sampleProps.customerSatisfactionContractAddress
              card.bottle.bottleAddress = .ok v ∧
          (card.mintButton = true ↔ v = 0) ∧ (0 < v → card.mintButton = false) :=
  ⟨by decide,
    mint_certificate_offered_iff_none_minted sampleChain sampleProps CustomerBottles.initial _
      (by decide)⟩

/-- Claim C9. When the props are present, the supply read answers `N` and every
read of a token id in `1..N` (and of the certificate of each owned bottle)
succeeds, `fetchBottles` lists exactly the records of the token ids `t` in
`1..N` whose recorded owner equals the connected account without regard to
letter case: the listed ids are the owned ids of `1..N` in ascending order,
each once; every listed bottle is owned by the account; every `tokenMetadata`
read is of an id in `1..N`; and the run ends without error, not loading. -/
theorem fetchBottles_lists_owned_tokens (E : Ethers) (P : BottlesProps) (s : BottlesState) (N : Nat)
    (hacc : P.currentAccount ≠ "") (hco : P.companyContractAddress.truthy = true)
    (hcs : P.customerSatisfactionContractAddress.truthy = true)
    (hprov : E.web3Provider = .ok ()) (hN : E.bottleNFTId P.companyContractAddress = .ok N)
    (hreads : ∀ t, 1 ≤ t → t ≤ N →
      ∃ m, E.tokenMetadata P.companyContractAddress t = .ok m ∧
        (toLowerCase m.bottle_owner = toLowerCase P.currentAccount →
          ∃ c, E.mintedSatisfToken P.customerSatisfactionContractAddress m.address_bottle
            = .ok c)) :
    (∀ b, b ∈ (fetchBottles E P s).1.bottles ↔
      ∃ t m, 1 ≤ t ∧ t ≤ N ∧ E.tokenMetadata P.companyContractAddress t = .ok m ∧
        toLowerCase m.bottle_owner = toLowerCase P.currentAccount ∧
        ∃ c, E.mintedSatisfToken P.customerSatisfactionContractAddress m.address_bottle
            = .ok c ∧ b = mkBottle t m c) ∧
    (fetchBottles E P s).1.bottles.map (fun b => b.tokenId)
      = (List.range' 1 N).filter (ownedByAccount E P) ∧
    ((fetchBottles E P s).1.bottles.map (fun b => b.tokenId)).Pairwise (fun a b => a < b) ∧
    (∀ b ∈ (fetchBottles E P s).1.bottles,
      toLowerCase b.ownerAddress = toLowerCase P.currentAccount) ∧
    (∀ contract (n : Int), Event.read contract "tokenMetadata" [.num n] ∈ (fetchBottles E P s).2 →
      1 ≤ n ∧ n ≤ N) ∧
    (fetchBottles E P s).1.error = "" ∧ (fetchBottles E P s).1.loading = false := by
  rw [fetchBottles_eq E P s N hacc hco hcs hprov hN]
  simp only []
  have hids : List.map (fun b => b.tokenId) ((List.range' 1 N).filterMap (tokenBottle E P))
      = (List.range' 1 N).filter (ownedByAccount E P) := by
    rw [List.map_filterMap, ← List.filterMap_eq_filter]
    apply List.filterMap_congr
    intro t ht
    rw [List.mem_range'_1] at ht
    obtain ⟨m, hm, hc⟩ := hreads t ht.1 (by omega)
    unfold tokenBottle ownedByAccount
    by_cases ho : toLowerCase m.bottle_owner = toLowerCase P.currentAccount
    · obtain ⟨c, hc⟩ := hc ho
      simp [hm, ho, hc, mkBottle, Option.guard]
    · simp [hm, ho, Option.guard]
  refine ⟨?_, hids, ?_, ?_, ?_, trivial, trivial⟩
  · intro b
    simp only [List.mem_filterMap, List.mem_range'_1, tokenBottle_some]
    constructor
    · rintro ⟨t, ⟨h1, h2⟩, m, c, hm, ho, hc, hb⟩
      exact ⟨t, m, h1, by omega, hm, ho, c, hc, hb⟩
    · rintro ⟨t, m, h1, h2, hm, ho, c, hc, hb⟩
      exact ⟨t, ⟨h1, by omega⟩, m, c, hm, ho, hc, hb⟩
  · rw [hids]
    exact (List.pairwise_lt_range' 1 N).filter _
  · intro b hb
    simp only [List.mem_filterMap, tokenBottle_some] at hb
    obtain ⟨t, _, m, c, _, ho, _, rfl⟩ := hb
    exact ho
  · intro contract n hn
    simp only [List.mem_cons, List.mem_flatMap, List.mem_range'_1] at hn
    rcases hn with hn | ⟨t, ⟨h1, h2⟩, ht⟩
    · simp at hn
    · have := mem_tokenReads E P t contract n ht
      omega

end CustomerBottlesTheorems

/-! ## Theorems: LabelCreation -/

section LabelCreationTheorems
open LabelCreation

/-- Witness for C9: on `sampleChain` (three tokens) the listed ids are the
owned ids among 1, 2, 3. -/
theorem fetchBottles_lists_owned_tokens_witness :
    (CustomerBottles.fetchBottles sampleChain sampleProps CustomerBottles.initial).1.bottles.map
        (fun b => b.tokenId)
      = (List.range' 1 3).filter (ownedByAccount sampleChain sampleProps) :=
  (fetchBottles_lists_owned_tokens sampleChain sampleProps CustomerBottles.initial 3
    (by decide) (by decide) (by decide) rfl rfl
    (by
      intro t h1 h3
      interval_cases t
      · exact ⟨sampleMetadata, rfl, fun _ => ⟨0, rfl⟩⟩
      · exact ⟨certifiedMetadata, rfl, fun _ => ⟨7, rfl⟩⟩
      · exact ⟨otherMetadata, rfl, fun h => absurd h (by decide)⟩)).2.1

/-- Counterexample to C10 as stated: after generating a key pair, filling the
form, switching to 'Use Existing' and a confirmed mint, the 'Use Existing'
path is selected and the label section is rendered. -/
theorem label_section_shown_on_use_existing_path :
    LabelCreation.Reachable (loadedLabelState.run generateThenUseExisting) ∧
      (loadedLabelState.run generateThenUseExisting).useExistingAddress = true ∧
      LabelCreation.labelSection (loadedLabelState.run generateThenUseExisting)
        = some sampleWallet.privateKey ∧
      ¬ ∀ s, LabelCreation.Reachable s → s.useExistingAddress = true →
        LabelCreation.labelSection s = none := by
  have hr : LabelCreation.Reachable (loadedLabelState.run generateThenUseExisting) :=
    ⟨configuredStorage, loadedLabelState, generateThenUseExisting, rfl, rfl⟩
  refine ⟨hr, by decide, by decide, fun h => ?_⟩
  have hnone := h _ hr (by decide)
  revert hnone
  decide

/-- No action other than key generation sets the private key. -/
theorem step_keeps_empty_key (s : LabelState) (a : LabelAction) (ha : a.isGenerate = false)
    (hk : s.privateKey = "") : (s.step a).privateKey = "" := by
  cases a with
  | generateKeyPair w => simp [LabelAction.isGenerate] at ha
  | selectGenerateNew => simp only [LabelState.step]; split <;> simp [hk]
  | selectUseExisting => simp only [LabelState.step]; split <;> simp [hk]
  | editBottleAddress t => simp only [LabelState.step]; split <;> simp [hk]
  | editName t => simp only [LabelState.step]; split <;> simp [hk]
  | editDescription t => simp only [LabelState.step]; split <;> simp [hk]
  | editCapacity t => simp only [LabelState.step]; split <;> simp [hk]
  | register W tx =>
    simp only [LabelState.step, registerBottleAddress, registerBottleAddressTry]
    repeat' split
    all_goals simp_all
  | mint W tx =>
    simp only [LabelState.step, mintBottle, mintBottleTry]
    repeat' split
    all_goals simp_all

/-- No sequence of actions without key generation sets the private key. -/
theorem run_keeps_empty_key (actions : List LabelAction) (s : LabelState)
    (ha : ∀ a ∈ actions, a.isGenerate = false) (hk : s.privateKey = "") :
    (s.run actions).privateKey = "" := by
  induction actions generalizing s with
  | nil => exact hk
  | cons a actions ih =>
    exact ih (s.step a) (fun b hb => ha b (List.mem_cons_of_mem _ hb))
      (step_keeps_empty_key s a (ha a (List.mem_cons_self _ _)) hk)

/-- The mount effect leaves the private key empty. -/
theorem loadEffect_privateKey (ls : LocalStorage) (s0 : LabelState)
    (h : LabelCreation.loadEffect ls LabelCreation.initial = .ok s0) : s0.privateKey = "" := by
  unfold LabelCreation.loadEffect at h
  simp only [bind, Except.bind, pure, Except.pure] at h
  revert h
  repeat' split
  all_goals simp_all
  all_goals
    intro h
    rw [← h]
    rfl

/-- Claim C10, amended. In every state of LabelCreation reached from the mount
effect by actions none of which generates a key pair (so in particular on
the 'Use Existing' path entered without a generated key), the private key is
empty and no QR code or label section is rendered. -/
theorem label_section_absent_without_generated_key (ls : LocalStorage) (s0 : LabelState) (actions : List LabelAction)
    (hload : LabelCreation.loadEffect ls LabelCreation.initial = .ok s0)
    (hgen : ∀ a ∈ actions, a.isGenerate = false) :
    (s0.run actions).privateKey = "" ∧ LabelCreation.labelSection (s0.run actions) = none := by
  have hk := run_keeps_empty_key actions s0 hgen (loadEffect_privateKey ls s0 hload)
  exact ⟨hk, by simp [LabelCreation.labelSection, hk]⟩

/-- Witness for C10 amended: the 'Use Existing' path with an entered address
and a confirmed mint. -/
theorem label_section_absent_without_generated_key_witness :
    (loadedLabelState.run useExistingOnly).useExistingAddress = true ∧
      (loadedLabelState.run useExistingOnly).mintSuccess = true ∧
      (loadedLabelState.run useExistingOnly).privateKey = "" ∧
      LabelCreation.labelSection (loadedLabelState.run useExistingOnly) = none :=
  ⟨by decide, by decide,
    label_section_absent_without_generated_key configuredStorage loadedLabelState
      useExistingOnly rfl (by decide)⟩

end LabelCreationTheorems

/-! ## Theorems: LabelCreation, minting -/

section MintTheorems
open LabelCreation

/-- The required-field guard of `mintBottle` taken alone. After a confirmed mint
the bottle name is cleared: the button 'Mint Bottle NFT' is disabled and a
click changes nothing, so the page starts no run there. The function itself,
were it called in that state, would stop at its guard, make no call and
return with `mintSuccess` as it was. -/
theorem mintBottle_empty_field_keeps_mintSuccess :
    LabelCreation.Reachable nameClearedState ∧
      nameClearedState.mintSuccess = true ∧ nameClearedState.name = "" ∧
      mintDisabled nameClearedState = true ∧
      nameClearedState.step (.mint connectedProvider (.confirmed ())) = nameClearedState ∧
      (mintBottle connectedProvider (.confirmed ()) nameClearedState).1.txStatus
        = "Please fill all fields and ensure Company contract is configured" ∧
      (mintBottle connectedProvider (.confirmed ()) nameClearedState).2 = [] ∧
      (mintBottle connectedProvider (.confirmed ()) nameClearedState).1.mintSuccess = true ∧
      labelSection (mintBottle connectedProvider (.confirmed ()) nameClearedState).1
        = some sampleWallet.privateKey := by
  refine ⟨⟨configuredStorage, loadedLabelState, _, rfl, rfl⟩, ?_⟩
  decide

/-- A run of `mintBottle` that gets past its required-field check and then fails
ends with `mintSuccess` false. -/
theorem mintBottle_failed_run (W : WalletProvider) (tx : TxOutcome Unit)
    (s : LabelState) (hfields : mintDisabled s = false)
    (hfail : W.present = false ∨ (∃ e, W.accounts = .error e) ∨ W.accounts = .ok [] ∨
      (∃ e, tx = .rejected e) ∨ (∃ e, tx = .failed e)) :
    (mintBottle W tx s).1.mintSuccess = false := by
  unfold mintDisabled at hfields
  unfold mintBottle mintBottleTry
  simp only [hfields]
  rcases hfail with h | ⟨e, h⟩ | h | ⟨e, h⟩ | ⟨e, h⟩
  · simp [connectedSigner, h]
  · cases hp : W.present <;> simp [connectedSigner, h, hp]
  · cases hp : W.present <;> simp [connectedSigner, h, hp, mkError]
  · subst h
    cases connectedSigner W <;> simp
  · subst h
    cases connectedSigner W <;> simp

/-- Claim C11. For every starting state of the rendered page (whatever
`mintSuccess` was, true after an earlier confirmed mint included) and every
run of `mintBottle` the page can start: when a required field or the company
address is missing, the button 'Mint Bottle NFT' is disabled and a click
starts no run and changes nothing; otherwise the click runs `mintBottle`, and
when that run fails, by a missing wallet provider, a failed or empty
`eth_accounts` answer (wallet not connected), a rejected submission or a
failed confirmation, `mintSuccess` is false when the run ends. -/
theorem mintBottle_failure_resets_mintSuccess (W : WalletProvider) (tx : TxOutcome Unit)
    (s : LabelState) (hload : s.loading = false) :
    (mintDisabled s = true → s.step (.mint W tx) = s) ∧
      (mintDisabled s = false →
        s.step (.mint W tx) = (mintBottle W tx s).1 ∧
        ((W.present = false ∨ (∃ e, W.accounts = .error e) ∨ W.accounts = .ok [] ∨
            (∃ e, tx = .rejected e) ∨ (∃ e, tx = .failed e)) →
          (mintBottle W tx s).1.mintSuccess = false ∧
          (s.step (.mint W tx)).mintSuccess = false)) := by
  refine ⟨fun hd => by simp [LabelState.step, hd], fun hd => ?_⟩
  have hstep : s.step (.mint W tx) = (mintBottle W tx s).1 := by
    simp [LabelState.step, hload, hd]
  refine ⟨hstep, fun hfail => ?_⟩
  have hfalse := mintBottle_failed_run W tx s hd hfail
  exact ⟨hfalse, by rw [hstep]; exact hfalse⟩

/-- Witness for C11: after a confirmed mint (`mintSuccess` true, button enabled), a
retry the user rejects in the wallet ends with `mintSuccess` false. -/
theorem mintBottle_failure_resets_mintSuccess_witness :
    (mintedLabelState.loading = false ∧ mintedLabelState.mintSuccess = true ∧
        mintDisabled mintedLabelState = false) ∧
      (mintedLabelState.step (.mint connectedProvider (.rejected userRejected))).mintSuccess
        = false :=
  ⟨by decide,
    (((mintBottle_failure_resets_mintSuccess connectedProvider (.rejected userRejected)
      mintedLabelState (by decide)).2 (by decide)).2
      (Or.inr (Or.inr (Or.inr (Or.inl ⟨userRejected, rfl⟩))))).2⟩

/-- Claim C14. From a loaded page on the 'Generate New' path: for every generated
key pair and every non-empty name, description and capacity, with a configured
company address and a connected wallet, a confirmed run of `mintBottle` ends
with `mintSuccess` true and the status 'Bottle NFT minted successfully!'; the
one transaction sent is `mint(bottleAddress, description, name, capacity)` in
that order, signed by the connected wallet; and the label section then
rendered has the generated private key as its QR value. -/
theorem mintBottle_confirmed_shows_generated_key (s : LabelState) (wallet : Wallet) (W : WalletProvider) (accounts : List String)
    (name description capacity : String)
    (hload : s.loading = false) (hgen : s.useExistingAddress = false)
    (hkey : wallet.privateKey ≠ "") (haddr : wallet.address ≠ "")
    (hn : name ≠ "") (hd : description ≠ "") (hc : capacity ≠ "")
    (hco : truthy s.contracts.company = true)
    (hW : W.present = true) (hacc : W.accounts = .ok accounts) (hne : accounts ≠ []) :
    (mintBottle W (.confirmed ())
        (s.run [.generateKeyPair wallet, .editName name, .editDescription description,
          .editCapacity capacity])).1.mintSuccess = true ∧
      (mintBottle W (.confirmed ())
        (s.run [.generateKeyPair wallet, .editName name, .editDescription description,
          .editCapacity capacity])).1.txStatus = "Bottle NFT minted successfully!" ∧
      (mintBottle W (.confirmed ())
        (s.run [.generateKeyPair wallet, .editName name, .editDescription description,
          .editCapacity capacity])).2
        = [.send .connectedWallet (ScanLabel.contractAddress s.contracts.company) "mint"
            [.str wallet.address, .str description, .str name, .str capacity], .wait] ∧
      labelSection (mintBottle W (.confirmed ())
        (s.run [.generateKeyPair wallet, .editName name, .editDescription description,
          .editCapacity capacity])).1 = some wallet.privateKey ∧
      (s.run [.generateKeyPair wallet, .editName name, .editDescription description,
          .editCapacity capacity, .mint W (.confirmed ())])
        = (mintBottle W (.confirmed ())
            (s.run [.generateKeyPair wallet, .editName name, .editDescription description,
              .editCapacity capacity])).1 := by
  have hlen : accounts.length ≠ 0 := by
    cases accounts with
    | nil => exact absurd rfl hne
    | cons a l => simp
  have hrun : s.run [.generateKeyPair wallet, .editName name, .editDescription description,
      .editCapacity capacity]
      = { s with privateKey := wallet.privateKey, bottleAddress := wallet.address,
                 name := name, description := description, capacity := capacity } := by
    simp [LabelState.run, LabelState.step, hload, hgen]
  have hsig : connectedSigner W = .ok () := by
    simp [connectedSigner, hW, hacc, hlen]
  have hrun5 : s.run [.generateKeyPair wallet, .editName name, .editDescription description,
      .editCapacity capacity, .mint W (.confirmed ())]
      = (s.run [.generateKeyPair wallet, .editName name, .editDescription description,
      .editCapacity capacity]).step (.mint W (.confirmed ())) := by
    simp [LabelState.run]
  rw [hrun5, hrun]
  simp [mintBottle, mintBottleTry, haddr, hn, hd, hc, hco, hsig, labelSection, hkey,
    LabelState.step, hload, mintDisabled]

/-- Witness for C14: the key pair `sampleWallet`, name "Vintage Reserve 2020",
capacity "750ml". -/
theorem mintBottle_confirmed_shows_generated_key_witness :
    labelSection (mintBottle connectedProvider (.confirmed ())
        (loadedLabelState.run [.generateKeyPair sampleWallet, .editName "Vintage Reserve 2020",
          .editDescription "Red wine", .editCapacity "750ml"])).1
      = some sampleWallet.privateKey :=
  (mintBottle_confirmed_shows_generated_key loadedLabelState sampleWallet connectedProvider
    [sampleAccount] "Vintage Reserve 2020" "Red wine" "750ml" rfl rfl (by decide) (by decide)
    (by decide) (by decide) (by decide) (by decide) rfl rfl (by decide)).2.2.2.1

/-- Claim C18 (defect in the code). With a generated key pair and a filled
form, a run of `mintBottle` and a run of `registerBottleAddress` each pass
through pending states, and in every one of them the page is rendered, the
triggering button is shown and its `disabled` attribute is false: a second
click submits the same transaction again. -/
theorem label_buttons_enabled_while_pending :
    mintBottlePending connectedProvider (.confirmed ()) filledLabelState ≠ [] ∧
      (∀ p ∈ mintBottlePending connectedProvider (.confirmed ()) filledLabelState,
        p.loading = false ∧ mintDisabled p = false ∧
        (mintBottle connectedProvider (.confirmed ()) p).2
          = [.send .connectedWallet (.str sampleCompany) "mint"
              [.str sampleWallet.address, .str "Red wine", .str "Vintage Reserve 2020",
                .str "750ml"], .wait]) ∧
      registerBottleAddressPending connectedProvider (.confirmed ()) filledLabelState ≠ [] ∧
      (∀ p ∈ registerBottleAddressPending connectedProvider (.confirmed ()) filledLabelState,
        p.loading = false ∧ registerButton p = true ∧ registerDisabled p = false ∧
        (registerBottleAddress connectedProvider (.confirmed ()) p).2
          = [.send .connectedWallet (.str sampleCompany) "registerBottleAddress"
              [.str sampleWallet.address], .wait]) := by
  decide

/-- Claim C20 (defect in the code). Two reachable states in which the label
section is rendered with a key that is not the key of the bottle minted last.
After a confirmed mint of the bottle of `sampleWallet`, pressing 'Generate New
Key Pair' puts the key of `secondWallet`, whose address was never minted, in
the QR code. After a confirmed mint, switching to 'Use Existing', entering the
address of `secondWallet` and minting it leaves the key of `sampleWallet` in
the QR code. -/
theorem label_key_differs_from_minted_bottle :
    (LabelCreation.Reachable (loadedLabelState.run mintThenGenerate) ∧
      labelSection (loadedLabelState.run mintThenGenerate) = some secondWallet.privateKey ∧
      loadedLabelState.lastMinted none mintThenGenerate = some sampleWallet.address ∧
      secondWallet.address ≠ sampleWallet.address) ∧
    (LabelCreation.Reachable (loadedLabelState.run mintThenEditAddress) ∧
      labelSection (loadedLabelState.run mintThenEditAddress) = some sampleWallet.privateKey ∧
      loadedLabelState.lastMinted none mintThenEditAddress = some secondWallet.address ∧
      sampleWallet.address ≠ secondWallet.address) := by
  refine ⟨⟨⟨configuredStorage, loadedLabelState, _, rfl, rfl⟩, ?_⟩,
    ⟨⟨configuredStorage, loadedLabelState, _, rfl, rfl⟩, ?_⟩⟩
  · decide
  · decide

end MintTheorems

/-! ## Theorems: ScanLabel, verification and transfer -/

section TransferTheorems
open ScanLabel LabelCreation

/-- A text of the spec's key shape is not empty. -/
theorem isKeyText_ne_empty (s : String) (h : IsKeyText s) : s ≠ "" := by
  rintro rfl
  obtain ⟨hex, hlen, _, h3 | h3⟩ := h
  · have : hex = [] := h3.symm
    subst this
    simp at hlen
  · cases h3

/-- A text the key pattern accepts is its own formatted key. -/
theorem formatKey_of_matches (k : String) (h : matchesKeyPattern k = true) : formatKey k = k := by
  obtain ⟨hex, _, _, hk⟩ := (matchesKeyPattern_iff k).1 h
  have : startsWith0x k = true := (startsWith0x_iff k).2 ⟨hex, hk⟩
  simp [formatKey, this]

/-- Formatting a formatted key changes nothing. -/
theorem formatKey_idem (s : String) : formatKey (formatKey s) = formatKey s := by
  by_cases h : startsWith0x s = true
  · simp [formatKey, h]
  · have h2 : startsWith0x ("0x" ++ s) = true :=
      (startsWith0x_iff _).2 ⟨s.data, by simp⟩
    simp [formatKey, h, h2]

/-- When the bottle wallet, the connected account or the company address is
missing, `setBottleOwner` makes no call and reports missing data. -/
theorem setBottleOwner_missing_data (E : Ethers) (tx : TxOutcome Ethers)
    (currentAccount : String) (s : ScanLabelState)
    (h : s.bottleWallet = none ∨ currentAccount = "" ∨ truthy s.contracts.company = false) :
    (setBottleOwner E tx currentAccount s).2 = [] ∧
      (setBottleOwner E tx currentAccount s).1.error
        = "Ownership transfer failed: Missing required data for ownership transfer" := by
  unfold setBottleOwner setBottleOwnerTry
  simp only []
  repeat' split
  all_goals simp_all [mkError]
  all_goals
    rename_i err heq
    rw [← heq]
    rfl

/-- Counterexample to C12 as stated: with no config saved, a scan of the text
`0xzz` ends `verifyBottle` with the error 'Invalid private key format', not
with a configuration-missing message. -/
theorem verifyBottle_malformed_key_without_config :
    ScanLabel.loadEffect emptyStorage ScanLabel.initial = .ok ScanLabel.initial ∧
      truthy scanUnconfigured.contracts.company = false ∧
      (verifyBottle sampleChain sampleAccount "0xzz" scanUnconfigured).1.error
        = "Invalid private key format" ∧
      (verifyBottle sampleChain sampleAccount "0xzz" scanUnconfigured).1.error
        ≠ "Company contract address not configured" := by
  refine ⟨rfl, ?_⟩
  decide

/-- Claim C12, amended. When the company address is empty, none of the five
workflows calls a contract. `registerBottleAddress`, `mintBottle`,
`setBottleOwner` and `fetchBottles` end with their missing-data message
(which for `fetchBottles` names `companyContractAddress`). `verifyBottle` ends
with the error of the first of its checks that fails: 'No private key
provided' for an empty scanned text; else 'Wallet not connected' when no
account is connected; else 'Invalid private key format' when the text is not
a well-formed key; else the message of the error thrown by the construction
of the bottle wallet; else 'Company contract address not configured'. -/
theorem workflows_without_company_address :
    (∀ (W : WalletProvider) (tx : TxOutcome Unit) (s : LabelState),
      truthy s.contracts.company = false →
      (registerBottleAddress W tx s).2 = [] ∧
      (registerBottleAddress W tx s).1.txStatus =
        "Please generate or enter a bottle address and ensure Company contract is configured") ∧
    (∀ (W : WalletProvider) (tx : TxOutcome Unit) (s : LabelState),
      truthy s.contracts.company = false →
      (mintBottle W tx s).2 = [] ∧
      (mintBottle W tx s).1.txStatus =
        "Please fill all fields and ensure Company contract is configured") ∧
    (∀ (E : Ethers) (currentAccount privateKey : String) (s : ScanLabelState),
      truthy s.contracts.company = false →
      (∀ ev ∈ (verifyBottle E currentAccount privateKey s).2, ev.isContractCall = false) ∧
      (privateKey = "" →
        (verifyBottle E currentAccount privateKey s).1.error = "No private key provided") ∧
      (privateKey ≠ "" → currentAccount = "" →
        (verifyBottle E currentAccount privateKey s).1.error = "Wallet not connected") ∧
      (privateKey ≠ "" → currentAccount ≠ "" →
        matchesKeyPattern (formatKey privateKey) = false →
        (verifyBottle E currentAccount privateKey s).1.error = "Invalid private key format") ∧
      (privateKey ≠ "" → currentAccount ≠ "" →
        matchesKeyPattern (formatKey privateKey) = true →
        ∀ e, E.wallet (formatKey privateKey) = .error e →
          (verifyBottle E currentAccount privateKey s).1.error = e.message) ∧
      (privateKey ≠ "" → currentAccount ≠ "" →
        matchesKeyPattern (formatKey privateKey) = true →
        (∃ wallet, E.wallet (formatKey privateKey) = .ok wallet) →
        (verifyBottle E currentAccount privateKey s).1.error
          = "Company contract address not configured")) ∧
    (∀ (E : Ethers) (tx : TxOutcome Ethers) (currentAccount : String) (s : ScanLabelState),
      truthy s.contracts.company = false →
      (setBottleOwner E tx currentAccount s).2 = [] ∧
      (setBottleOwner E tx currentAccount s).1.error
        = "Ownership transfer failed: Missing required data for ownership transfer") ∧
    (∀ (E : Ethers) (P : BottlesProps) (s : BottlesState),
      P.companyContractAddress.truthy = false →
      (CustomerBottles.fetchBottles E P s).2 = [] ∧
      ∃ before after,
        (CustomerBottles.fetchBottles E P s).1.error
          = "Missing required props: " ++ before ++ "companyContractAddress " ++ after) := by
  refine ⟨?_, ?_, ?_, ?_, ?_⟩
  · intro W tx s h
    simp [registerBottleAddress, h]
  · intro W tx s h
    simp [mintBottle, h]
  · intro E currentAccount privateKey s h
    refine ⟨?_, ?_, ?_, ?_, ?_, ?_⟩
    · intro ev
      unfold verifyBottle verifyBottleTry
      simp only []
      repeat' split
      all_goals simp_all [Event.isContractCall]
    · intro h1
      simp [verifyBottle, verifyBottleTry, h1, mkError]
    · intro h1 h2
      simp [verifyBottle, verifyBottleTry, h1, h2, mkError]
    · intro h1 h2 h3
      simp [verifyBottle, verifyBottleTry, h1, h2, h3, mkError]
    · intro h1 h2 h3 e he
      simp [verifyBottle, verifyBottleTry, h1, h2, h3, he, mkError]
    · intro h1 h2 h3 ⟨w, hw⟩
      simp [verifyBottle, verifyBottleTry, h1, h2, h3, hw, h, mkError]
  · intro E tx currentAccount s h
    exact setBottleOwner_missing_data E tx currentAccount s (Or.inr (Or.inr h))
  · intro E P s h
    refine ⟨by simp [CustomerBottles.fetchBottles, h], ?_⟩
    refine ⟨if P.currentAccount = "" then "currentAccount " else "",
      if !P.customerSatisfactionContractAddress.truthy then "customerSatisfactionContractAddress"
      else "", ?_⟩
    simp [CustomerBottles.fetchBottles, CustomerBottles.missingProps, h]

/-- Witness for C12 amended: a well-formed key scanned with no config saved. -/
theorem workflows_without_company_address_witness :
    (verifyBottle sampleChain sampleAccount sampleWallet.privateKey scanUnconfigured).1.error
      = "Company contract address not configured" :=
  (workflows_without_company_address.2.2.1 sampleChain sampleAccount sampleWallet.privateKey
    scanUnconfigured (by decide)).2.2.2.2.2 (by decide) (by decide) (by decide) ⟨_, rfl⟩

/-- Claim C13. For every scanned text that is a well-formed key, with a wallet
connected and the company address configured, when the `getTokenData` read of
the derived address fails (with an error that has a message, as every error
of `ethers` has), the run ends with that message as its non-empty error,
`tokenData` null and `loading` false; the view rendered is the error message
with 'Scan Again', without the transfer button; and no transaction is
submitted. -/
theorem verifyBottle_unregistered_bottle (E : Ethers) (currentAccount s : String) (st : ScanLabelState) (wallet : Wallet)
    (e : JsError)
    (hkey : IsKeyText s) (hacc : currentAccount ≠ "") (hconn : st.isConnected = true)
    (hco : truthy st.contracts.company = true)
    (hw : E.wallet (formatKey s) = .ok wallet) (hp : E.web3Provider = .ok ())
    (hread : E.getTokenData (contractAddress st.contracts.company) wallet.address = .error e)
    (hmsg : e.message ≠ "") :
    (onScan E currentAccount s st).1.error = e.message ∧
      (onScan E currentAccount s st).1.error ≠ "" ∧
      (onScan E currentAccount s st).1.tokenData = none ∧
      (onScan E currentAccount s st).1.loading = false ∧
      render currentAccount (onScan E currentAccount s st).1 = .errorMessage e.message ∧
      (render currentAccount (onScan E currentAccount s st).1).scanAgain = true ∧
      (render currentAccount (onScan E currentAccount s st).1).transferButton = false ∧
      ∀ signer contract method args,
        Event.send signer contract method args ∉ (onScan E currentAccount s st).2 := by
  have hs : s ≠ "" := isKeyText_ne_empty s hkey
  have hm : matchesKeyPattern (formatKey s) = true := (formatKey_matches_iff s).2 hkey
  have hstate : (onScan E currentAccount s st).1
      = { st with scanResult := s, bottleWallet := some wallet, tokenData := none,
                  loading := false, error := e.message, txStatus := "" } := by
    simp [onScan, verifyBottle, verifyBottleTry, hs, hacc, hm, hw, hco, hp, hread]
  refine ⟨?_, ?_, ?_, ?_, ?_, ?_, ?_, ?_⟩
  · rw [hstate]
  · rw [hstate]; exact hmsg
  · rw [hstate]
  · rw [hstate]
  · rw [hstate]; simp [render, hconn, hs, hmsg]
  · rw [hstate]; simp [render, hconn, hs, hmsg, View.scanAgain]
  · rw [hstate]; simp [render, hconn, hs, hmsg, View.transferButton]
  · intro signer contract method args
    exact verifyBottle_sends_nothing E currentAccount s _ signer contract method args

/-- Witness for C13: the key of `secondWallet` scanned on a chain where no
bottle is registered. -/
theorem verifyBottle_unregistered_bottle_witness :
    render sampleAccount
        (onScan unregisteredChain sampleAccount secondWallet.privateKey scanReady).1
      = .errorMessage callException.message :=
  (verifyBottle_unregistered_bottle unregisteredChain sampleAccount secondWallet.privateKey
    scanReady secondWallet callException
    ((formatKey_matches_iff secondWallet.privateKey).1 (by decide)) (by decide) rfl
    (by decide) rfl rfl rfl (by decide)).2.2.2.2.1

/-- Claim C15. For every key `0x` followed by 64 hexadecimal characters (the
form the generator produces and the label encodes), `verifyBottle` leaves the
text unchanged, accepts it, and builds the bottle wallet from exactly that
text; for 64 hexadecimal characters without the prefix the key used is `0x`
followed by them; and formatting an already formatted key changes nothing. -/
theorem scanned_key_round_trip :
    (∀ hex : List Char, hex.length = 64 → (∀ c ∈ hex, c ∈ hexAlphabet) →
      formatKey ⟨'0' :: 'x' :: hex⟩ = ⟨'0' :: 'x' :: hex⟩ ∧
      matchesKeyPattern (formatKey ⟨'0' :: 'x' :: hex⟩) = true ∧
      ∀ (E : Ethers) (currentAccount : String) (st : ScanLabelState), currentAccount ≠ "" →
        (verifyBottle E currentAccount ⟨'0' :: 'x' :: hex⟩ st).2.head?
          = some (.newWallet ⟨'0' :: 'x' :: hex⟩)) ∧
    (∀ hex : List Char, hex.length = 64 → (∀ c ∈ hex, c ∈ hexAlphabet) →
      formatKey ⟨hex⟩ = "0x" ++ ⟨hex⟩ ∧
      matchesKeyPattern (formatKey ⟨hex⟩) = true ∧
      ∀ (E : Ethers) (currentAccount : String) (st : ScanLabelState), currentAccount ≠ "" →
        (verifyBottle E currentAccount ⟨hex⟩ st).2.head? = some (.newWallet ("0x" ++ ⟨hex⟩))) ∧
    (∀ s : String, formatKey (formatKey s) = formatKey s) := by
  have first : ∀ (k : String), IsKeyText k → ∀ (E : Ethers) (currentAccount : String)
      (st : ScanLabelState), currentAccount ≠ "" →
      (verifyBottle E currentAccount k st).2.head? = some (.newWallet (formatKey k)) := by
    intro k hk E currentAccount st hacc
    have hs := isKeyText_ne_empty k hk
    have hm := (formatKey_matches_iff k).2 hk
    simp only [verifyBottle, verifyBottleTry, hs, hacc, hm, if_false, Bool.not_true,
      Bool.false_eq_true]
    repeat' split
    all_goals simp_all
  refine ⟨?_, ?_, formatKey_idem⟩
  · intro hex hlen hhex
    have hk : IsKeyText ⟨'0' :: 'x' :: hex⟩ := ⟨hex, hlen, hhex, Or.inr rfl⟩
    have hm := (formatKey_matches_iff _).2 hk
    have hf : formatKey ⟨'0' :: 'x' :: hex⟩ = ⟨'0' :: 'x' :: hex⟩ := by
      simp [formatKey, startsWith0x]
    refine ⟨hf, hm, ?_⟩
    intro E currentAccount st hacc
    have := first _ hk E currentAccount st hacc
    rw [hf] at this
    exact this
  · intro hex hlen hhex
    have hk : IsKeyText ⟨hex⟩ := ⟨hex, hlen, hhex, Or.inl rfl⟩
    have hm := (formatKey_matches_iff _).2 hk
    have hns : startsWith0x ⟨hex⟩ = false := by
      cases h : startsWith0x ⟨hex⟩ with
      | false => rfl
      | true =>
        exfalso
        obtain ⟨rest, hr⟩ := (startsWith0x_iff _).1 h
        have hr' : hex = '0' :: 'x' :: rest := hr
        have hx : 'x' ∈ hexAlphabet := hhex 'x' (by rw [hr']; simp)
        revert hx
        decide
    have hf : formatKey ⟨hex⟩ = "0x" ++ ⟨hex⟩ := by
      simp [formatKey, hns]
    refine ⟨hf, hm, ?_⟩
    intro E currentAccount st hacc
    have := first _ hk E currentAccount st hacc
    rw [hf] at this
    exact this

/-- Witness for C15: the generated key of `sampleWallet` scanned back. -/
theorem scanned_key_round_trip_witness :
    (verifyBottle sampleChain sampleAccount
        ⟨'0' :: 'x' :: "4c0883a69102937d6231471b5dbb6204fe5129617082792ae468d01a3f362318".data⟩
        scanReady).2.head?
      = some (.newWallet
        ⟨'0' :: 'x' :: "4c0883a69102937d6231471b5dbb6204fe5129617082792ae468d01a3f362318".data⟩) :=
  (scanned_key_round_trip.1
    "4c0883a69102937d6231471b5dbb6204fe5129617082792ae468d01a3f362318".data
    (by decide) (by decide)).2.2 sampleChain sampleAccount scanReady (by decide)

/-- While `verifyBottle` is pending, `loading` is true. -/
theorem verifyBottle_pending_loading (E : Ethers) (currentAccount privateKey : String)
    (s : ScanLabelState) :
    ∀ p ∈ verifyBottlePending E currentAccount privateKey s, p.loading = true := by
  intro p
  unfold verifyBottlePending
  simp only []
  repeat' split
  all_goals simp_all

/-- The part of C18 that holds for `setBottleOwner`: in every pending state
`loading` is true and the view shows no transfer button. -/
theorem setBottleOwner_pending_loading (E : Ethers) (tx : TxOutcome Ethers)
    (currentAccount : String) (s : ScanLabelState) :
    ∀ p ∈ setBottleOwnerPending E tx currentAccount s,
      p.loading = true ∧ (render currentAccount p).transferButton = false := by
  have hview : ∀ p : ScanLabelState, p.loading = true →
      (render currentAccount p).transferButton = false := by
    intro p hp
    unfold render
    repeat' split
    all_goals simp_all [View.transferButton]
  have hload : ∀ p ∈ setBottleOwnerPending E tx currentAccount s, p.loading = true := by
    intro p
    unfold setBottleOwnerPending
    simp only []
    repeat' split
    all_goals simp_all
    · rintro (h | h) <;> simp [h]
    · rintro (h | h | h)
      · simp [h]
      · simp [h]
      · exact verifyBottle_pending_loading _ _ _ _ _ h
  intro p hp
  exact ⟨hload p hp, hview p (hload p hp)⟩

/-- The calls of a list of calls are that list. -/
theorem filterMap_event_map_call (evs : List Event) :
    (evs.map LogEntry.call).filterMap LogEntry.event? = evs := by
  induction evs with
  | nil => rfl
  | cons e es ih => simp [LogEntry.event?, ih]

/-- The calls of a list of calls are that list (composed form). -/
theorem filterMap_event_comp (evs : List Event) :
    evs.filterMap (LogEntry.event? ∘ LogEntry.call) = evs := by
  induction evs with
  | nil => rfl
  | cons e es ih => simp [LogEntry.event?, ih]

/-- A list of calls holds no status. -/
theorem filterMap_status_comp (evs : List Event) :
    evs.filterMap (LogEntry.status? ∘ LogEntry.call) = [] := by
  induction evs with
  | nil => rfl
  | cons e es ih => simp [LogEntry.status?, ih]

/-- The function `verifyBottle` ends with an empty status. -/
theorem verifyBottle_txStatus (E : Ethers) (currentAccount privateKey : String)
    (s : ScanLabelState) : (verifyBottle E currentAccount privateKey s).1.txStatus = "" := by
  unfold verifyBottle verifyBottleTry
  simp only []
  repeat' split
  all_goals simp_all

/-- The calls of the log of `setBottleOwner` are the calls of `setBottleOwner`. -/
theorem setBottleOwnerLog_events (E : Ethers) (tx : TxOutcome Ethers) (currentAccount : String)
    (s : ScanLabelState) :
    (setBottleOwnerLog E tx currentAccount s).filterMap LogEntry.event?
      = (setBottleOwner E tx currentAccount s).2 := by
  unfold setBottleOwnerLog setBottleOwner setBottleOwnerTry
  simp only []
  repeat' split
  all_goals simp_all [LogEntry.event?, verifyBottleLog, List.filterMap_append,
    filterMap_event_map_call, filterMap_event_comp]

/-- The last status of the log of `setBottleOwner` is the status it ends with. -/
theorem setBottleOwnerLog_last_status (E : Ethers) (tx : TxOutcome Ethers)
    (currentAccount : String) (s : ScanLabelState) :
    ((setBottleOwnerLog E tx currentAccount s).filterMap LogEntry.status?).getLast?
      = some (setBottleOwner E tx currentAccount s).1.txStatus := by
  unfold setBottleOwnerLog setBottleOwner setBottleOwnerTry
  simp only []
  repeat' split
  all_goals simp_all [LogEntry.status?, verifyBottleLog, List.filterMap_append,
    filterMap_status_comp, verifyBottle_txStatus]

/-- Claim C19. In every run of `setBottleOwner`: the status 'Ownership
transferred successfully!' is set only when the transaction was confirmed, and
then right after 'Transaction sent, waiting for confirmation...' and the wait
for the confirmation, not before. A confirmed transfer (the library answering
as before the transfer, the stored key being a formatted key) is followed by
the construction of the bottle wallet from the same key and one `getTokenData`
read of its address, and the `tokenData` left is the answer of that read, made
on the chain as it is after the confirmation. When the submission or the
confirmation fails, the run makes no read, and the error is 'Ownership
transfer failed: ' followed by the message of the failure. -/
theorem setBottleOwner_status_order_and_reread (E : Ethers) (tx : TxOutcome Ethers) (currentAccount : String)
    (s : ScanLabelState) :
    (LogEntry.status "Ownership transferred successfully!"
        ∈ setBottleOwnerLog E tx currentAccount s →
      ∃ after before rest, tx = .confirmed after ∧
        setBottleOwnerLog E tx currentAccount s
          = before ++ [.status "Transaction sent, waiting for confirmation...", .call .wait,
              .status "Ownership transferred successfully!"] ++ rest ∧
        LogEntry.status "Ownership transferred successfully!" ∉ before) ∧
    (∀ (after : Ethers) (bottleWallet signer rebuilt : Wallet),
      tx = .confirmed after → s.bottleWallet = some bottleWallet → currentAccount ≠ "" →
      truthy s.contracts.company = true → E.web3Provider = .ok () →
      E.wallet bottleWallet.privateKey = .ok signer →
      matchesKeyPattern bottleWallet.privateKey = true →
      after.web3Provider = .ok () → after.wallet bottleWallet.privateKey = .ok rebuilt →
      setBottleOwnerLog E tx currentAccount s
        = [.status "Preparing ownership transfer...",
            .call (.newSigner bottleWallet.privateKey),
            .status "Sending ownership transfer transaction...",
            .call (.send (.bottleKey bottleWallet.privateKey)
              (contractAddress s.contracts.company) "setAddressOwner" [.str currentAccount]),
            .status "Transaction sent, waiting for confirmation...", .call .wait,
            .status "Ownership transferred successfully!", .status "",
            .call (.newWallet bottleWallet.privateKey),
            .call (.read (contractAddress s.contracts.company) "getTokenData"
              [.str rebuilt.address])] ∧
      (setBottleOwner E tx currentAccount s).1.tokenData
        = match after.getTokenData (contractAddress s.contracts.company) rebuilt.address with
          | .ok metadata => some ⟨metadata, rebuilt.address⟩
          | .error _ => none) ∧
    (∀ e : JsError, tx = .rejected e ∨ tx = .failed e →
      (∀ contract method args,
        Event.read contract method args ∉ (setBottleOwner E tx currentAccount s).2) ∧
      ∀ (bottleWallet signer : Wallet),
        s.bottleWallet = some bottleWallet → currentAccount ≠ "" →
        truthy s.contracts.company = true → E.web3Provider = .ok () →
        E.wallet bottleWallet.privateKey = .ok signer →
        (setBottleOwner E tx currentAccount s).1.error
          = "Ownership transfer failed: " ++ e.message) := by
  refine ⟨?_, ?_, ?_⟩
  · intro hmem
    unfold setBottleOwnerLog at hmem ⊢
    revert hmem
    simp only []
    repeat' split
    all_goals simp_all
    rename_i bw _ _ _ _ _ _ _ _ _ _
    exact ⟨[.status "Preparing ownership transfer...", .call (.newSigner bw.privateKey),
      .status "Sending ownership transfer transaction...",
      .call (.send (.bottleKey bw.privateKey)
        (contractAddress s.contracts.company) "setAddressOwner" [.str currentAccount])],
      ⟨_, rfl⟩, by simp⟩
  · intro after bottleWallet signer rebuilt htx hbw hacc hco hp hw hm hp' hw'
    subst htx
    have hf := formatKey_of_matches _ hm
    have hk : bottleWallet.privateKey ≠ "" := by
      intro h0
      rw [h0] at hm
      revert hm
      decide
    constructor
    · simp [setBottleOwnerLog, hbw, hacc, hco, hp, hw, verifyBottleLog, verifyBottle,
        verifyBottleTry, hk, hf, hm, hw', hp']
      cases after.getTokenData (contractAddress s.contracts.company) rebuilt.address <;> simp
    · simp [setBottleOwner, setBottleOwnerTry, hbw, hacc, hco, hp, hw, verifyBottle,
        verifyBottleTry, hk, hf, hm, hw', hp']
      cases after.getTokenData (contractAddress s.contracts.company) rebuilt.address <;> simp
  · intro e htx
    constructor
    · intro contract method args
      unfold setBottleOwner setBottleOwnerTry
      simp only []
      rcases htx with htx | htx <;> subst htx <;> repeat' split
      all_goals simp_all
    · intro bottleWallet signer hbw hacc hco hp hw
      rcases htx with htx | htx <;> subst htx <;>
        simp [setBottleOwner, setBottleOwnerTry, hbw, hacc, hco, hp, hw]

/-- Witness for C19: a confirmed transfer of the scanned bottle of `sampleWallet`. -/
theorem setBottleOwner_status_order_and_reread_witness :
    (setBottleOwner sampleChain (.confirmed sampleChain) sampleAccount
        (onScan sampleChain sampleAccount sampleWallet.privateKey scanReady).1).1.tokenData
      = some ⟨sampleMetadata, sampleWallet.address⟩ :=
  ((setBottleOwner_status_order_and_reread sampleChain (.confirmed sampleChain) sampleAccount
    (onScan sampleChain sampleAccount sampleWallet.privateKey scanReady).1).2.1
    sampleChain ⟨sampleWallet.privateKey, sampleWallet.address⟩
    ⟨sampleWallet.privateKey, sampleWallet.address⟩
    ⟨sampleWallet.privateKey, sampleWallet.address⟩
    rfl (by decide) (by decide) (by decide) rfl rfl (by decide) rfl rfl).2

end TransferTheorems

/-! ## Theorems: CustomerBottles, mintCertificate -/

section CertificateTheorems
open CustomerBottles

/-- The part of C18 that holds for `mintCertificate`: in every pending state of a
run, every rendered 'Mint Certificate' button is disabled. -/
theorem mintCertificate_pending_disabled (E : Ethers) (tx : TxOutcome Ethers) (s : BottlesState) :
    ∀ p ∈ mintCertificatePending E tx s, ∀ cards, render p = .list cards →
      ∀ card ∈ cards, card.mintDisabled = true := by
  have key : ∀ p : BottlesState, (∃ m, p.txStatus = some ⟨"pending", m⟩) →
      ∀ cards, render p = .list cards → ∀ card ∈ cards, card.mintDisabled = true := by
    rintro p ⟨m, hm⟩ cards hr card hc
    unfold render at hr
    split at hr
    · cases hr
    · split at hr
      · cases hr
      · simp only [View.list.injEq] at hr
        subst hr
        simp only [List.mem_map] at hc
        obtain ⟨b, _, rfl⟩ := hc
        simp [hm]
  intro p hp
  apply key
  unfold mintCertificatePending at hp
  revert hp
  repeat' split
  all_goals simp_all
  all_goals
    rintro (h | h) <;> simp [h]

end CertificateTheorems

/-! ## Theorems: the wallet session -/

/-- Counterexample to C16 as stated: without a provider, and when the user
declines, the promise `connectWallet` returns is fulfilled: its caller gets
no error. -/
theorem connectWallet_failure_not_reported :
    (App.connectWallet none AppState.initial).result = .ok () ∧
      (App.connectWallet (some decliningWallet) AppState.initial).result = .ok () :=
  ⟨rfl, rfl⟩

/-- Claim C16, amended. The function `connectWallet` reports no failure to its
caller. Without a provider it shows the alert 'Please install MetaMask!';
when the request is rejected it logs the error; in both cases it returns
normally and `currentAccount` (the whole state of `App`) is left unchanged. -/
theorem connectWallet_swallows_failure (app : AppState) :
    ((App.connectWallet none app).result = .ok () ∧
      (App.connectWallet none app).alerts = ["Please install MetaMask!"] ∧
      (App.connectWallet none app).logged = [] ∧
      (App.connectWallet none app).app = app) ∧
    (∀ (eth : Ethereum) (e : JsError), eth.requestAccounts = .error e →
      (App.connectWallet (some eth) app).result = .ok () ∧
      (App.connectWallet (some eth) app).alerts = [] ∧
      (App.connectWallet (some eth) app).logged = [e] ∧
      (App.connectWallet (some eth) app).app = app) := by
  refine ⟨⟨rfl, rfl, rfl, rfl⟩, ?_⟩
  intro eth e h
  simp [App.connectWallet, App.connectWalletTry, h, bind, Except.bind]

/-- Witness for C16 amended: the user declines the request. -/
theorem connectWallet_swallows_failure_witness :
    (App.connectWallet (some decliningWallet) AppState.initial).result = .ok () ∧
      (App.connectWallet (some decliningWallet) AppState.initial).alerts = [] ∧
      (App.connectWallet (some decliningWallet) AppState.initial).logged = [userRejected] ∧
      (App.connectWallet (some decliningWallet) AppState.initial).app = AppState.initial :=
  (connectWallet_swallows_failure AppState.initial).2 decliningWallet userRejected rfl

/-- Claim C17 (defect in the code). On a window with a provider, the wallet
effect registers its handler (function 0); after the teardown the handler is
still among the registered listeners, and a later 'accountsChanged'
notification still calls `setCurrentAccount`: the cleanup passes
`removeListener` a function created on the spot, which was never registered. -/
theorem accountsChanged_handler_survives_teardown :
    App.listeners (App.walletEffect sampleWindow AppState.initial).1 = [⟨0, true⟩] ∧
      App.listeners (App.walletEffectCleanup (App.walletEffect sampleWindow AppState.initial).1)
        = [⟨0, true⟩] ∧
      App.accountsChanged
          (App.walletEffectCleanup (App.walletEffect sampleWindow AppState.initial).1)
          [otherAccount]
        = [otherAccount] := by
  decide

/-- Removing a function that was never registered removes nothing. -/
theorem eraseP_fresh (ls : List Listener) (n : Nat) (h : ∀ l ∈ ls, l.id < n) :
    (ls.reverse.eraseP (fun l => l.id == n)).reverse = ls := by
  rw [List.eraseP_of_forall_not, List.reverse_reverse]
  intro l hl
  have := h l (List.mem_reverse.1 hl)
  simp
  omega

/-- On every window whose listeners were created earlier, the cleanup of the
wallet effect leaves the listeners as the effect left them. -/
theorem cleanup_keeps_handler (w : Window) (app : AppState)
    (h : ∀ l ∈ App.listeners w, l.id < w.functionsCreated) :
    App.listeners (App.walletEffectCleanup (App.walletEffect w app).1)
      = App.listeners (App.walletEffect w app).1 := by
  obtain ⟨eth, n⟩ := w
  cases eth with
  | none => rfl
  | some eth =>
    simp only [App.walletEffect, App.walletEffectCleanup, App.listeners, Ethereum.on,
      Ethereum.removeListener]
    apply eraseP_fresh
    intro l hl
    simp only [List.mem_append, List.mem_singleton] at hl
    rcases hl with hl | hl
    · have hlt : l.id < n := h l hl
      omega
    · subst hl
      simp

/-- Calls of `setCurrentAccount` with one value leave that value. -/
theorem foldl_setAccount (calls : List String) (app : AppState) (v : String)
    (hne : calls ≠ []) (hall : ∀ c ∈ calls, c = v) :
    (App.setCurrentAccounts app calls).currentAccount = v := by
  induction calls generalizing app with
  | nil => exact absurd rfl hne
  | cons c cs ih =>
    have hc : c = v := hall c (List.mem_cons_self _ _)
    cases cs with
    | nil => simp [App.setCurrentAccounts, hc]
    | cons d ds =>
      have := ih { app with currentAccount := c } (by simp)
        (fun x hx => hall x (List.mem_cons_of_mem _ hx))
      simpa [App.setCurrentAccounts] using this

/-- The part of C17 that holds: while `App` is mounted on a window with a
provider, a notification with account list `accounts` sets `currentAccount`
to its first element, or to the empty string when it is empty. -/
theorem mounted_accountsChanged (w : Window) (eth : Ethereum) (app : AppState)
    (accounts : List String) (hw : w.ethereum = some eth) :
    (App.setCurrentAccounts (App.walletEffect w app).2
        (App.accountsChanged (App.walletEffect w app).1 accounts)).currentAccount
      = accounts.head?.getD "" := by
  apply foldl_setAccount
  · simp [App.walletEffect, hw, App.accountsChanged, Ethereum.emitAccountsChanged, Ethereum.on,
      List.filterMap_append]
  · intro c hc
    simp only [App.walletEffect, hw, App.accountsChanged, Ethereum.emitAccountsChanged,
      List.mem_filterMap] at hc
    obtain ⟨l, _, hl⟩ := hc
    split at hl
    · exact (Option.some.inj hl).symm
    · cases hl

/-! ## Theorems: ScanLabel, sequences of runs -/

section ScanRunTheorems
open ScanLabel

/-- Every run of `verifyBottle` ends with the shown bottle and the stored wallet in
agreement, whatever the state it started from. -/
theorem verifyBottle_walletMatches (E : Ethers) (currentAccount privateKey : String)
    (s : ScanLabelState) : WalletMatches (verifyBottle E currentAccount privateKey s).1 := by
  intro tokenData
  unfold verifyBottle verifyBottleTry
  simp only []
  repeat' split
  all_goals simp_all
  intro h
  rw [← h]

/-- A run of `setBottleOwner` either leaves `tokenData` and `bottleWallet` as they
were or ends with those of its final `verifyBottle`. -/
theorem setBottleOwner_cells (E : Ethers) (tx : TxOutcome Ethers) (currentAccount : String)
    (s : ScanLabelState) :
    ((setBottleOwner E tx currentAccount s).1.tokenData = s.tokenData ∧
        (setBottleOwner E tx currentAccount s).1.bottleWallet = s.bottleWallet) ∨
      ∃ (after : Ethers) (key : String) (s' : ScanLabelState),
        (setBottleOwner E tx currentAccount s).1.tokenData
            = (verifyBottle after currentAccount key s').1.tokenData ∧
          (setBottleOwner E tx currentAccount s).1.bottleWallet
            = (verifyBottle after currentAccount key s').1.bottleWallet := by
  unfold setBottleOwner setBottleOwnerTry
  simp only []
  repeat' split
  all_goals first
    | exact Or.inl ⟨rfl, rfl⟩
    | exact Or.inr ⟨_, _, _, rfl, rfl⟩

/-- A run of `setBottleOwner` keeps the shown bottle and the stored wallet in
agreement. -/
theorem setBottleOwner_walletMatches (E : Ethers) (tx : TxOutcome Ethers)
    (currentAccount : String) (s : ScanLabelState) (h : WalletMatches s) :
    WalletMatches (setBottleOwner E tx currentAccount s).1 := by
  have hcases := setBottleOwner_cells E tx currentAccount s
  intro tokenData htd
  rcases hcases with ⟨h1, h2⟩ | ⟨after, key, s', h1, h2⟩
  · rw [h1] at htd
    rw [h2]
    exact h tokenData htd
  · rw [h1] at htd
    rw [h2]
    exact verifyBottle_walletMatches after currentAccount key s' tokenData htd

/-- The handler of 'Scan Again' keeps the agreement. -/
theorem scanAgain_walletMatches (s : ScanLabelState) (h : WalletMatches s) :
    WalletMatches (scanAgain s) := h

/-- The connection effect keeps the agreement. -/
theorem connectionEffect_walletMatches (currentAccount : String) (s : ScanLabelState)
    (h : WalletMatches s) : WalletMatches (connectionEffect currentAccount s) := h

/-- Every completed run keeps the agreement. -/
theorem step_walletMatches (s : ScanLabelState) (action : ScanAction) (h : WalletMatches s) :
    WalletMatches (s.step action) := by
  cases action with
  | scan E currentAccount data => exact verifyBottle_walletMatches E currentAccount data _
  | transfer E tx currentAccount => exact setBottleOwner_walletMatches E tx currentAccount s h
  | scanAgain => exact h
  | accountChanged currentAccount => exact h

/-- Every sequence of completed runs keeps the agreement. -/
theorem run_walletMatches (actions : List ScanAction) (s : ScanLabelState)
    (h : WalletMatches s) : WalletMatches (s.run actions) := by
  induction actions generalizing s with
  | nil => exact h
  | cons action actions ih => exact ih (s.step action) (step_walletMatches s action h)

/-- The mount effect leaves `tokenData` null. -/
theorem loadEffect_tokenData (ls : LocalStorage) (s0 : ScanLabelState)
    (h : ScanLabel.loadEffect ls ScanLabel.initial = .ok s0) : s0.tokenData = none := by
  unfold ScanLabel.loadEffect at h
  simp only [bind, Except.bind, pure, Except.pure] at h
  revert h
  repeat' split
  all_goals simp_all
  all_goals
    intro h
    rw [← h]
    rfl

/-- Every transaction of a run of `setBottleOwner` is signed with the key of the
stored bottle wallet. -/
theorem setBottleOwner_send_signer (E : Ethers) (tx : TxOutcome Ethers) (currentAccount : String)
    (s : ScanLabelState) (signer : Signer) (contract : Json) (method : String)
    (args : List Json)
    (h : Event.send signer contract method args ∈ (setBottleOwner E tx currentAccount s).2) :
    ∃ bottleWallet, s.bottleWallet = some bottleWallet ∧
      signer = .bottleKey bottleWallet.privateKey := by
  revert h
  unfold setBottleOwner setBottleOwnerTry
  simp only []
  repeat' split
  all_goals simp_all [verifyBottle_sends_nothing]

/-- Claim C21. In every state of ScanLabel reached from the mount effect by
sequentially completed runs (scans, transfers, 'Scan Again', account changes),
whenever `tokenData` is not null the stored bottle wallet is not null, its
address is `tokenData.bottleAddress`, and every transaction a run of
`setBottleOwner` started from that state submits is signed with the private
key of that wallet: the key of the bottle being displayed. -/
theorem scan_wallet_matches_token_data (ls : LocalStorage) (s0 : ScanLabelState) (actions : List ScanAction)
    (hload : ScanLabel.loadEffect ls ScanLabel.initial = .ok s0) :
    ∀ tokenData, (s0.run actions).tokenData = some tokenData →
      ∃ wallet, (s0.run actions).bottleWallet = some wallet ∧
        wallet.address = tokenData.bottleAddress ∧
        ∀ (E : Ethers) (tx : TxOutcome Ethers) (currentAccount : String) (signer : Signer)
          (contract : Json) (method : String) (args : List Json),
          Event.send signer contract method args
              ∈ (setBottleOwner E tx currentAccount (s0.run actions)).2 →
            signer = .bottleKey wallet.privateKey := by
  intro tokenData htd
  have h0 : WalletMatches s0 := by
    intro td h
    rw [loadEffect_tokenData ls s0 hload] at h
    cases h
  obtain ⟨wallet, hw, haddr⟩ := run_walletMatches actions s0 h0 tokenData htd
  refine ⟨wallet, hw, haddr, ?_⟩
  intro E tx currentAccount signer contract method args hsend
  obtain ⟨w, hw', hs⟩ := setBottleOwner_send_signer E tx currentAccount _ signer contract
    method args hsend
  rw [hw] at hw'
  cases hw'
  exact hs

/-- Witness for C21: the bottle of `sampleWallet` scanned and transferred. -/
theorem scan_wallet_matches_token_data_witness :
    ∃ wallet, (scanLoaded.run scanAndTransfer).bottleWallet = some wallet ∧
      wallet.address = sampleWallet.address ∧
      ∀ (E : Ethers) (tx : TxOutcome Ethers) (currentAccount : String) (signer : Signer)
        (contract : Json) (method : String) (args : List Json),
        Event.send signer contract method args
            ∈ (setBottleOwner E tx currentAccount (scanLoaded.run scanAndTransfer)).2 →
          signer = .bottleKey wallet.privateKey :=
  scan_wallet_matches_token_data configuredStorage scanLoaded scanAndTransfer rfl
    ⟨sampleMetadata, sampleWallet.address⟩ (by decide)

/-- Every confirmed run of `setBottleOwner` that gets to its final `verifyBottle`
ends with an empty status. -/
theorem setBottleOwner_confirmed_txStatus (E after : Ethers) (currentAccount : String)
    (s : ScanLabelState) (bottleWallet signer : Wallet)
    (hbw : s.bottleWallet = some bottleWallet) (hacc : currentAccount ≠ "")
    (hco : truthy s.contracts.company = true) (hp : E.web3Provider = .ok ())
    (hw : E.wallet bottleWallet.privateKey = .ok signer) :
    (setBottleOwner E (.confirmed after) currentAccount s).1.txStatus = "" := by
  simp [setBottleOwner, setBottleOwnerTry, hbw, hacc, hco, hp, hw, verifyBottle_txStatus]

/-- Claim C22 (defect in the code). The bottle of `sampleWallet`, owned by
`otherAccount`, is scanned and shown; the transfer is confirmed and the
verification that follows succeeds (no error, the new record is shown). The
status 'Ownership transferred successfully!' was set during the run, but the
status the run ends with is empty and the view rendered shows no status: the
final `verifyBottle` resets `txStatus` after the success message was set. -/
theorem transfer_success_status_cleared :
    render sampleAccount scannedState
        = .bottleDetails ⟨unownedMetadata, sampleWallet.address⟩ true false none ∧
      (setBottleOwner beforeTransferChain (.confirmed sampleChain) sampleAccount
          scannedState).1.tokenData = some ⟨sampleMetadata, sampleWallet.address⟩ ∧
      (setBottleOwner beforeTransferChain (.confirmed sampleChain) sampleAccount
          scannedState).1.error = "" ∧
      LogEntry.status "Ownership transferred successfully!"
        ∈ setBottleOwnerLog beforeTransferChain (.confirmed sampleChain) sampleAccount
            scannedState ∧
      (setBottleOwner beforeTransferChain (.confirmed sampleChain) sampleAccount
          scannedState).1.txStatus = "" ∧
      render sampleAccount
          (setBottleOwner beforeTransferChain (.confirmed sampleChain) sampleAccount
            scannedState).1
        = .bottleDetails ⟨sampleMetadata, sampleWallet.address⟩ true false none := by
  decide

end ScanRunTheorems

end SBT
